import Mathlib

/-!
Verification development for the `llm-d-benchmark` analysis scripts
(`dev_run/analyze.py` and `dev_run/analyze_ext.py`).

The scripts are shallowly embedded as follows.

* JSON documents (the results of Python's `json.load` / `json.loads`) are the
  inductive type `JVal`.  The JSON text parser itself is Python's standard
  library, not code of this repository, so functions that call `json.loads` on
  text extracted by repository code take the parser as an explicit argument
  `loads : String → Option JVal` (`none` models a `JSONDecodeError`).
* Python floats stored in pandas columns are the type `PFloat`: a rational
  number, `+inf`, `-inf` or `nan`.  `nan` also stands for a missing value
  (pandas stores `None` as `NaN` in float columns, and `pd.isna` holds for
  both).  The scripts' arithmetic only distinguishes finite values, the two
  infinities and NaN, which `PFloat` models exactly; binary floating point
  rounding is idealised away, as every claim under study is about which
  values flow where, not about rounding error.
* Python `int` is `ℤ`, Python exceptions are `Except Unit`.
* Filesystem-derived inputs (the experiment label computed by
  `top_level_label`, the stage index parsed from the file name, and the raw
  text of companion files) are fields of the input records: file discovery
  and path manipulation are environment interaction, not data
  transformation.
* `float(x)` / `int(x)` are modelled on JSON numbers only (`pyFloatE` /
  `pyIntE`); Python additionally accepts booleans and numeric strings there,
  which no claim exercises.  Likewise DataFrame columns are modelled as
  numeric-or-missing (`asPF`): the scripts' pandas arithmetic presupposes
  numeric columns.
* `dateutil.parser.parse` is third-party library code, not code of this
  repository, and its heuristics (it can reinterpret out-of-range fields
  rather than fail) are outside the sources under study, so
  `parse_epp_log_line` takes it as an explicit argument
  `dtparse : String → Bool` recording on which strings it succeeds; `false`
  models the raise that the function's blanket `except` turns into `None`.
  The converted datetime value itself is carried as the matched text.
-/

/-- A parsed JSON value (the result of Python's `json.load`). -/
inductive JVal where
  | null
  | bool (b : Bool)
  | num (q : ℚ)
  | str (s : String)
  | arr (elems : List JVal)
  | obj (fields : List (String × JVal))

namespace JVal

/-- Python truthiness of a parsed JSON value
(`None`, `False`, `0`, `""`, `[]`, `{}` are falsy). -/
def truthy : JVal → Bool
  | .null => false
  | .bool b => b
  | .num q => decide (q ≠ 0)
  | .str s => decide (s ≠ "")
  | .arr es => !es.isEmpty
  | .obj fs => !fs.isEmpty

def isObj : JVal → Bool
  | .obj _ => true
  | _ => false

def isArr : JVal → Bool
  | .arr _ => true
  | _ => false

/-- The elements of a JSON array (`[]` for non-arrays; used only under an
`isArr` guard). -/
def elems : JVal → List JVal
  | .arr es => es
  | _ => []

end JVal

mutual

/-- Python `==` on parsed JSON values, restricted to structural equality.
(Python's cross-type numeric equalities such as `True == 1` are not modelled;
the script only compares token timestamps, which are numbers.) -/
def jEqB : JVal → JVal → Bool
  | .null, .null => true
  | .bool a, .bool b => a == b
  | .num a, .num b => a == b
  | .str a, .str b => a == b
  | .arr as, .arr bs => jEqListB as bs
  | .obj as, .obj bs => jEqFieldsB as bs
  | _, _ => false

def jEqListB : List JVal → List JVal → Bool
  | [], [] => true
  | a :: as, b :: bs => jEqB a b && jEqListB as bs
  | _, _ => false

def jEqFieldsB : List (String × JVal) → List (String × JVal) → Bool
  | [], [] => true
  | (k, a) :: as, (k2, b) :: bs => k == k2 && jEqB a b && jEqFieldsB as bs
  | _, _ => false

end

/-- Look up a key in a JSON object's field list (first occurrence;
`json.loads` produces objects with distinct keys). -/
def jLookup (fields : List (String × JVal)) (k : String) : Option JVal :=
  match fields with
  | [] => none
  | (k2, v) :: rest => if k2 = k then some v else jLookup rest k

/-- Python `d.get(k)` on a JSON object: `None` both when the key is absent and
when its value is JSON `null` (JSON `null` parses to Python `None`). -/
def objGetN (fields : List (String × JVal)) (k : String) : Option JVal :=
  match jLookup fields k with
  | some .null => none
  | some v => some v
  | none => none

/-- Python `d.get(k, dflt)` on a JSON object: the default only replaces an
absent key; a stored JSON `null` is returned (as `.null`). -/
def objGetD (fields : List (String × JVal)) (k : String) (dflt : JVal) : JVal :=
  match jLookup fields k with
  | some v => v
  | none => dflt

/-- Python `x or y`. -/
def pyOr (x y : JVal) : JVal :=
  if x.truthy then x else y

/-- Python `d.get(k, dflt)` where `d` is an arbitrary value: raises
`AttributeError` when `d` is not a dict. -/
def dictGetE (d : JVal) (k : String) (dflt : JVal) : Except Unit JVal :=
  match d with
  | .obj fs => .ok (objGetD fs k dflt)
  | _ => .error ()

/-- Python `d.get(k)` where `d` is an arbitrary value: raises when `d` is not
a dict, and yields `None` for an absent key or a `null` value. -/
def dictGetNE (d : JVal) (k : String) : Except Unit (Option JVal) :=
  match d with
  | .obj fs => .ok (objGetN fs k)
  | _ => .error ()

/-- Python `float(x)` on a parsed JSON value (see the module comment:
modelled on numbers only; anything else raises in the model). -/
def pyFloatE : JVal → Except Unit ℚ
  | .num q => .ok q
  | _ => .error ()

/-- Truncation of a rational toward zero, as Python `int()` does on a float. -/
def ratTrunc (q : ℚ) : ℤ :=
  if 0 ≤ q then Rat.floor q else -Rat.floor (-q)

/-- Python `int(x)` on a parsed JSON value (numbers only, truncating). -/
def pyIntE : JVal → Except Unit ℤ
  | .num q => .ok (ratTrunc q)
  | _ => .error ()

/-! ### Python-style floats: rationals extended with infinities and NaN -/

/-- A pandas/NumPy float value: finite, `+inf`, `-inf` or `NaN`.
`nan` doubles as the missing value (how pandas stores `None` in a float
column). -/
inductive PFloat where
  | num (q : ℚ)
  | inf
  | ninf
  | nan
deriving DecidableEq

namespace PFloat

def isNaN : PFloat → Bool
  | .nan => true
  | _ => false

def isNum : PFloat → Prop
  | .num _ => True
  | _ => False

instance : DecidablePred isNum := fun x => by
  cases x <;> simp [isNum] <;> infer_instance

/-- The rational carried by a finite value (`0` otherwise). -/
def toQ : PFloat → ℚ
  | .num q => q
  | _ => 0

/-- IEEE-style addition on extended values. -/
def add : PFloat → PFloat → PFloat
  | .nan, _ => .nan
  | _, .nan => .nan
  | .inf, .ninf => .nan
  | .ninf, .inf => .nan
  | .inf, _ => .inf
  | _, .inf => .inf
  | .ninf, _ => .ninf
  | _, .ninf => .ninf
  | .num a, .num b => .num (a + b)

/-- IEEE-style multiplication (`inf * 0 = nan`). -/
def mul : PFloat → PFloat → PFloat
  | .nan, _ => .nan
  | _, .nan => .nan
  | .inf, .inf => .inf
  | .inf, .ninf => .ninf
  | .ninf, .inf => .ninf
  | .ninf, .ninf => .inf
  | .inf, .num b => if b > 0 then .inf else if b < 0 then .ninf else .nan
  | .num a, .inf => if a > 0 then .inf else if a < 0 then .ninf else .nan
  | .ninf, .num b => if b > 0 then .ninf else if b < 0 then .inf else .nan
  | .num a, .ninf => if a > 0 then .ninf else if a < 0 then .inf else .nan
  | .num a, .num b => .num (a * b)

/-- IEEE-style division (division by zero yields a signed infinity or NaN;
there is no negative zero in the model). -/
def div : PFloat → PFloat → PFloat
  | .nan, _ => .nan
  | _, .nan => .nan
  | .inf, .inf => .nan
  | .inf, .ninf => .nan
  | .ninf, .inf => .nan
  | .ninf, .ninf => .nan
  | .inf, .num b => if b < 0 then .ninf else .inf
  | .ninf, .num b => if b < 0 then .inf else .ninf
  | .num _, .inf => .num 0
  | .num _, .ninf => .num 0
  | .num a, .num b =>
    if b = 0 then (if a > 0 then .inf else if a < 0 then .ninf else .nan)
    else .num (a / b)

def sub (a b : PFloat) : PFloat := add a (mul (.num (-1)) b)

def ofInt (n : ℤ) : PFloat := .num n

/-- `Series.replace([np.inf, -np.inf], np.nan)` on one value. -/
def replaceInf : PFloat → PFloat
  | .inf => .nan
  | .ninf => .nan
  | x => x

/-- `Series.fillna` on one value: the second argument fills a NaN. -/
def fillna (a b : PFloat) : PFloat :=
  if a.isNaN then b else a

/-- Strict `<` as NumPy compares floats: any comparison with NaN is false. -/
def ltB : PFloat → PFloat → Bool
  | .num a, .num b => decide (a < b)
  | .num _, .inf => true
  | .ninf, .num _ => true
  | .ninf, .inf => true
  | _, _ => false

end PFloat

/-- pandas column sum with the default `min_count=0`: NaN entries are
skipped and an all-NaN (or empty) column sums to `0`. -/
def psum0 (l : List PFloat) : PFloat :=
  (l.filter (fun x => ¬ x.isNaN)).foldl PFloat.add (.num 0)

/-- pandas column sum with `min_count=1`: like `psum0` but an all-NaN or
empty column yields NaN. -/
def psum1 (l : List PFloat) : PFloat :=
  let l2 := l.filter (fun x => ¬ x.isNaN)
  if l2.isEmpty then .nan else l2.foldl PFloat.add (.num 0)

/-- pandas column mean: NaN entries are skipped; an all-NaN or empty column
yields NaN. -/
def pmean (l : List PFloat) : PFloat :=
  let l2 := l.filter (fun x => ¬ x.isNaN)
  if l2.isEmpty then .nan
  else PFloat.div (l2.foldl PFloat.add (.num 0)) (.num l2.length)

/-- `np.where(pd.notna a, a, b)` on one value. -/
def pfWhere (a b : PFloat) : PFloat :=
  if a.isNaN then b else a

/-- A raw `.get` result as a DataFrame cell: numbers stay, everything else
(absent, `null`, or non-numeric garbage) is the missing value. -/
def asPF : Option JVal → PFloat
  | some (.num q) => .num q
  | _ => .nan

/-! ### Character-level string helpers

`String.trim` and friends are implemented on `Substring` positions and do not
reduce in the kernel, so the Python string operations the scripts use are
modelled directly on `List Char`. -/

/-- Python `str.strip()` (whitespace from both ends; `Char.isWhitespace`
stands for Python's whitespace class). -/
def pyStrip (s : String) : String :=
  String.mk (((s.data.dropWhile Char.isWhitespace).reverse.dropWhile Char.isWhitespace).reverse)

/-- Python `str.rstrip()`. -/
def pyRstrip (s : String) : String :=
  String.mk ((s.data.reverse.dropWhile Char.isWhitespace).reverse)

/-- Python `str.rstrip(",")`. -/
def rstripComma (s : String) : String :=
  String.mk ((s.data.reverse.dropWhile (fun c => c = ',')).reverse)

/-- Python `str.splitlines()` (on `'\n'`; the exotic line terminators Python
also splits on do not occur in the inputs under study).  A final empty piece
is dropped, as Python does. -/
def splitNlGo : List Char → List Char → List (List Char)
  | [], acc => [acc.reverse]
  | c :: rest, acc =>
    if c = '\n' then acc.reverse :: splitNlGo rest [] else splitNlGo rest (c :: acc)

def pySplitlines (s : String) : List String :=
  let ps := splitNlGo s.data []
  let ps2 := if ps.getLast? = some [] then ps.dropLast else ps
  ps2.map String.mk

/-- Byte-wise (code-point) string comparison, as Python compares `str`. -/
def charListLe : List Char → List Char → Bool
  | [], _ => true
  | _ :: _, [] => false
  | a :: as, b :: bs => if a < b then true else if b < a then false else charListLe as bs

def strLeB (a b : String) : Bool := charListLe a.data b.data

/-! ### Sorting (model of `DataFrame.sort_values` / sorted key lists) -/

def insertLe {α : Type} (le : α → α → Bool) (a : α) : List α → List α
  | [] => [a]
  | b :: bs => if le a b then a :: b :: bs else b :: insertLe le a bs

def insSortBy {α : Type} (le : α → α → Bool) : List α → List α
  | [] => []
  | a :: as => insertLe le a (insSortBy le as)

/-! ### `np.percentile` (linear interpolation, the default method) -/

/-- `np.percentile(samples, p)`: sort, take the virtual index
`p/100 * (n-1)`, and interpolate linearly between its two neighbours.
(`0` for an empty list; the scripts only call it on non-empty lists.) -/
def npPercentile (samples : List ℚ) (p : ℚ) : ℚ :=
  let s := insSortBy (fun a b => decide (a ≤ b)) samples
  match s with
  | [] => 0
  | _ :: _ =>
    let n := s.length
    let h : ℚ := p * (n - 1) / 100
    let i : ℤ := Rat.floor h
    let f : ℚ := h - i
    let lo := s.getD i.toNat 0
    let hi := s.getD (i.toNat + 1) lo
    lo + f * (hi - lo)

/-! ## `_read_per_request_stats` (identical in both scripts) -/

/-- One line of the NDJSON fallback loop of `_iter_requests`: strip
whitespace and trailing commas, skip blank and bare-bracket lines, try to
parse, and skip lines that fail to parse. -/
def ndjsonClean (line : String) : String := rstripComma (pyStrip line)

def ndjsonSkip (c : String) : Bool := c = "" || c = "[" || c = "]"

def ndjsonLines (loads : String → Option JVal) (lines : List String) : List JVal :=
  lines.filterMap (fun l =>
    let c := ndjsonClean l
    if ndjsonSkip c then none else loads c)

/-- A line of the NDJSON loop that is attempted but fails to parse. -/
def ndjsonUnparseable (loads : String → Option JVal) (l : String) : Bool :=
  !ndjsonSkip (ndjsonClean l) && (loads (ndjsonClean l)).isNone

/-- `_iter_requests`: a JSON-array document yields its elements (and a
non-array document nothing); if the text looks like an array but fails to
parse, or does not look like an array, fall back to line-by-line NDJSON. -/
def iter_requests (loads : String → Option JVal) (text : String) : List JVal :=
  if text = "" then []
  else if (text.data.dropWhile Char.isWhitespace).head? = some '[' then
    match loads text with
    | some (.arr es) => es
    | some _ => []
    | none => ndjsonLines loads (pySplitlines text)
  else ndjsonLines loads (pySplitlines text)

/-- The mutable state of `_read_per_request_stats`'s loop: the token
counters and the collected TTFT / ITL samples. -/
structure PRAcc where
  inTok : ℤ
  outTok : ℤ
  ttftS : List ℚ
  itlS : List ℚ
deriving DecidableEq

/-- Token start times `times[::2]`. -/
def everyOther : List JVal → List JVal
  | [] => []
  | [a] => [a]
  | a :: _ :: rest => a :: everyOther rest

/-- The TTFT branch of the loop body: when a start time is present and there
is at least one token start, sample `float(first) - float(start)` if it is
non-negative.  A float conversion failure raises (aborting the whole loop
with the samples collected so far, as the blanket `except` does). -/
def ttftStep (acc : PRAcc) (start_time : Option JVal) (token_starts : List JVal) :
    Except PRAcc PRAcc :=
  match start_time, token_starts with
  | some st, t0 :: _ =>
    match pyFloatE t0 with
    | .error _ => .error acc
    | .ok q0 =>
      match pyFloatE st with
      | .error _ => .error acc
      | .ok qs =>
        let ttft := q0 - qs
        if 0 ≤ ttft then .ok { acc with ttftS := acc.ttftS ++ [ttft] } else .ok acc
  | _, _ => .ok acc

/-- The ITL loop: for each consecutive pair of token starts sample the
difference if it is non-negative (the current element is converted before
the previous one, as in `float(ts[i]) - float(ts[i-1])`). -/
def itlGo (acc : PRAcc) (prev : JVal) : List JVal → Except PRAcc PRAcc
  | [] => .ok acc
  | b :: rest =>
    match pyFloatE b with
    | .error _ => .error acc
    | .ok qb =>
      match pyFloatE prev with
      | .error _ => .error acc
      | .ok qa =>
        let d := qb - qa
        let acc2 := if 0 ≤ d then { acc with itlS := acc.itlS ++ [d] } else acc
        itlGo acc2 b rest

/-- The body of `_read_per_request_stats`'s `for obj in _iter_requests(...)`
loop for one request object.  `.error st` models an exception escaping to
the blanket `except Exception: pass` with the state mutated so far. -/
def prStep (acc : PRAcc) (obj : JVal) : Except PRAcc PRAcc :=
  match obj with
  | .obj fs =>
    if (objGetN fs "error").isSome then .ok acc
    else
      let info := pyOr (objGetD fs "info" (.obj [])) (.obj [])
      match dictGetE info "input_tokens" (.num 0) with
      | .error _ => .error acc
      | .ok vIn =>
        match pyIntE (pyOr vIn (.num 0)) with
        | .error _ => .error acc
        | .ok nIn =>
          let acc := { acc with inTok := acc.inTok + nIn }
          match dictGetE info "output_tokens" (.num 0) with
          | .error _ => .error acc
          | .ok vOut =>
            match pyIntE (pyOr vOut (.num 0)) with
            | .error _ => .error acc
            | .ok nOut =>
              let acc := { acc with outTok := acc.outTok + nOut }
              let start_time := objGetN fs "start_time"
              match dictGetE info "output_token_times" (.arr []) with
              | .error _ => .error acc
              | .ok rawTimes =>
                let tok_times := pyOr rawTimes (.arr [])
                if !tok_times.isArr || tok_times.elems.isEmpty then .ok acc
                else
                  let ts := tok_times.elems
                  let token_starts :=
                    if ts.length ≥ 2 && jEqB (ts.getD 0 .null) (ts.getD 1 .null)
                    then everyOther ts else ts
                  match ttftStep acc start_time token_starts with
                  | .error a => .error a
                  | .ok acc2 =>
                    match token_starts with
                    | t0 :: rest => itlGo acc2 t0 rest
                    | [] => .ok acc2
  | _ => .ok acc

/-- Run the loop over all request objects; an exception ends the loop but
keeps the state accumulated so far. -/
def runSteps (acc : PRAcc) : List JVal → PRAcc
  | [] => acc
  | o :: os =>
    match prStep acc o with
    | .ok a => runSteps a os
    | .error a => a

/-- The dictionary returned by `_read_per_request_stats`. -/
structure PRStats where
  input_tokens_total : ℤ
  output_tokens_total : ℤ
  ttft_p50_s_computed : Option ℚ
  ttft_p90_s_computed : Option ℚ
  itl_p50_s_computed : Option ℚ
  itl_p90_s_computed : Option ℚ
deriving DecidableEq

def initPRAcc : PRAcc := ⟨0, 0, [], []⟩

def mkPRStats (acc : PRAcc) : PRStats :=
  { input_tokens_total := acc.inTok
    output_tokens_total := acc.outTok
    ttft_p50_s_computed := if acc.ttftS.isEmpty then none else some (npPercentile acc.ttftS 50)
    ttft_p90_s_computed := if acc.ttftS.isEmpty then none else some (npPercentile acc.ttftS 90)
    itl_p50_s_computed := if acc.itlS.isEmpty then none else some (npPercentile acc.itlS 50)
    itl_p90_s_computed := if acc.itlS.isEmpty then none else some (npPercentile acc.itlS 90) }

/-- `_read_per_request_stats`: `none` for the file argument models an absent
`per_request_lifecycle_metrics.json` (the `os.path.exists` early return);
otherwise the file's text is processed. -/
def read_per_request_stats (loads : String → Option JVal) (file : Option String) : PRStats :=
  match file with
  | none => ⟨0, 0, none, none, none, none⟩
  | some text => mkPRStats (runSteps initPRAcc (iter_requests loads text))

/-! ## `parse_stage_file` and `build_stage_df` -/

/-- The inputs `parse_stage_file` draws from the filesystem for one stage
file: the experiment label (`top_level_label`), the stage index parsed from
the file name, the parsed stage JSON (`none` when `json.load` raises a
decode error on the file's content), and the text of the companion
per-request file (`none` when it does not exist). -/
structure StageFileInput where
  experiment : String
  stage_index : Option ℤ
  source_path : String
  content : Option JVal
  per_request : Option String

/-- One row of the stage-level DataFrame. -/
structure StageRecord where
  experiment : String
  stage_index : Option ℤ
  requested_qps : PFloat
  send_duration_s : PFloat
  achieved_rps_json : PFloat
  input_toks_per_sec_json : PFloat
  output_toks_per_sec_json : PFloat
  total_toks_per_sec_json : PFloat
  ttft_mean_s : PFloat
  ttft_p50_s : PFloat
  ttft_p90_s : PFloat
  itl_mean_s : PFloat
  itl_p50_s : PFloat
  itl_p90_s : PFloat
  request_latency_p50_s : PFloat
  successes : ℤ
  failures : ℤ
  success_rate : Option ℚ
  input_tokens_total : ℤ
  output_tokens_total : ℤ
  source_path : String
deriving DecidableEq

/-- The percentile fallback of `parse_stage_file`: when the stage JSON's
percentile is absent (or `null`) or `float`s to `0.0`, and a recomputed
percentile exists, substitute the recomputed value; `float()` of a
non-numeric present value raises. -/
def percFallback (raw : Option JVal) (comp : Option ℚ) : Except Unit (Option JVal) :=
  match raw with
  | none => .ok (if comp.isSome then comp.map JVal.num else none)
  | some v =>
    match pyFloatE v with
    | .error _ => .error ()
    | .ok q => .ok (if q = 0 ∧ comp.isSome then comp.map JVal.num else some v)

def parse_stage_file (loads : String → Option JVal) (f : StageFileInput) :
    Except Unit StageRecord := do
  let data ← match f.content with
    | none => Except.error ()
    | some d => Except.ok d
  let load := pyOr (← dictGetE data "load_summary" (.obj [])) (.obj [])
  let succ := pyOr (← dictGetE data "successes" (.obj [])) (.obj [])
  let fails := pyOr (← dictGetE data "failures" (.obj [])) (.obj [])
  let lat := pyOr (← dictGetE succ "latency" (.obj [])) (.obj [])
  let ttf := pyOr (← dictGetE lat "time_to_first_token" (.obj [])) (.obj [])
  let itl := pyOr (← dictGetE lat "inter_token_latency" (.obj [])) (.obj [])
  let reqL := pyOr (← dictGetE lat "request_latency" (.obj [])) (.obj [])
  let thr := pyOr (← dictGetE succ "throughput" (.obj [])) (.obj [])
  let itps_json ← dictGetNE thr "input_tokens_per_sec"
  let otps_json ← dictGetNE thr "output_tokens_per_sec"
  let ttps_json ← dictGetNE thr "total_tokens_per_sec"
  let successes ← pyIntE (pyOr (← dictGetE succ "count" (.num 0)) (.num 0))
  let failures ← pyIntE (pyOr (← dictGetE fails "count" (.num 0)) (.num 0))
  let total := successes + failures
  let success_rate : Option ℚ :=
    if total ≠ 0 then some ((successes : ℚ) / (total : ℚ)) else none
  let pr := read_per_request_stats loads f.per_request
  let ttft_p50_raw ← dictGetNE ttf "p50"
  let ttft_p90_raw ← dictGetNE ttf "p90"
  let itl_p50_raw ← dictGetNE itl "p50"
  let itl_p90_raw ← dictGetNE itl "p90"
  let itl_p50_f ← percFallback itl_p50_raw pr.itl_p50_s_computed
  let itl_p90_f ← percFallback itl_p90_raw pr.itl_p90_s_computed
  let ttft_p50_f ← percFallback ttft_p50_raw pr.ttft_p50_s_computed
  let ttft_p90_f ← percFallback ttft_p90_raw pr.ttft_p90_s_computed
  let ttft_mean ← dictGetNE ttf "mean"
  let itl_mean ← dictGetNE itl "mean"
  let reqp50 ← dictGetNE reqL "p50"
  let qps ← dictGetNE load "requested_rate"
  let dur ← dictGetNE load "send_duration"
  let rps ← dictGetNE thr "requests_per_sec"
  return {
    experiment := f.experiment
    stage_index := f.stage_index
    requested_qps := asPF qps
    send_duration_s := asPF dur
    achieved_rps_json := asPF rps
    input_toks_per_sec_json := asPF itps_json
    output_toks_per_sec_json := asPF otps_json
    total_toks_per_sec_json := asPF ttps_json
    ttft_mean_s := asPF ttft_mean
    ttft_p50_s := asPF ttft_p50_f
    ttft_p90_s := asPF ttft_p90_f
    itl_mean_s := asPF itl_mean
    itl_p50_s := asPF itl_p50_f
    itl_p90_s := asPF itl_p90_f
    request_latency_p50_s := asPF reqp50
    successes := successes
    failures := failures
    success_rate := success_rate
    input_tokens_total := pr.input_tokens_total
    output_tokens_total := pr.output_tokens_total
    source_path := f.source_path }

/-- `≤` on finite and infinite floats (NaN handled by the caller). -/
def pfLeB : PFloat → PFloat → Bool
  | .num a, .num b => decide (a ≤ b)
  | .ninf, _ => true
  | _, .inf => true
  | _, _ => false

/-- Ascending sort order on a float column, missing values last
(`sort_values` with the default `na_position="last"`). -/
def pfSortLe (a b : PFloat) : Bool :=
  if a.isNaN then b.isNaN else if b.isNaN then true else pfLeB a b

def optIntSortLe (a b : Option ℤ) : Bool :=
  match a, b with
  | none, b => b.isNone
  | some _, none => true
  | some x, some y => decide (x ≤ y)

/-- `sort_values(by=["experiment", "requested_qps", "stage_index"])`. -/
def stageRecLe (a b : StageRecord) : Bool :=
  if a.experiment = b.experiment then
    if a.requested_qps = b.requested_qps then optIntSortLe a.stage_index b.stage_index
    else pfSortLe a.requested_qps b.requested_qps
  else strLeB a.experiment b.experiment

/-- `build_stage_df`: parse every discovered stage file (an exception in any
`parse_stage_file` call propagates — the list comprehension has no handler)
and sort the rows. -/
def build_stage_df (loads : String → Option JVal) (files : List StageFileInput) :
    Except Unit (List StageRecord) := do
  let rows ← files.mapM (parse_stage_file loads)
  return insSortBy stageRecLe rows

/-! ## `aggregate_per_qps` -/

/-- The `--served-mode` flag (argparse restricts it to these choices). -/
inductive ServedMode where
  | total
  | successes
  | json
deriving DecidableEq

/-- One row of the aggregated (per experiment and requested QPS) DataFrame. -/
structure AggRow where
  experiment : String
  requested_qps : ℚ
  successes : ℤ
  failures : ℤ
  duration_s : PFloat
  achieved_rps_json : PFloat
  ttft_mean_s : PFloat
  itl_mean_s : PFloat
  ttft_p50_s : PFloat
  ttft_p90_s : PFloat
  itl_p50_s : PFloat
  itl_p90_s : PFloat
  input_tokens_total : ℤ
  output_tokens_total : ℤ
  input_toks_per_sec_json : PFloat
  output_toks_per_sec_json : PFloat
  total_toks_per_sec_json : PFloat
  total_completed : ℤ
  success_rate : PFloat
  completed_rps_total : PFloat
  completed_rps_successes : PFloat
  completed_rps : PFloat
  output_toks_per_sec : PFloat
  input_toks_per_sec : PFloat
  total_toks_per_sec : PFloat
  input_toks_per_sec_plot : PFloat
  output_toks_per_sec_plot : PFloat
  total_toks_per_sec_plot : PFloat
  norm_time_per_output_token_s : PFloat
deriving DecidableEq

/-- The `groupby(["experiment", "requested_qps"])` key of a stage row:
`none` when `requested_qps` is missing — `groupby` silently drops rows whose
key is NaN (the default `dropna=True`). -/
def stageKey (r : StageRecord) : Option (String × ℚ) :=
  match r.requested_qps with
  | .num q => some (r.experiment, q)
  | _ => none

def keyLeB (a b : String × ℚ) : Bool :=
  if a.1 = b.1 then decide (a.2 ≤ b.2) else strLeB a.1 b.1

/-- The distinct group keys, in the sorted order `groupby` emits them. -/
def groupKeys (df : List StageRecord) : List (String × ℚ) :=
  insSortBy keyLeB (df.filterMap stageKey).dedup

/-- The stage rows belonging to one group key. -/
def groupOf (df : List StageRecord) (k : String × ℚ) : List StageRecord :=
  df.filter (fun r => decide (stageKey r = some k))

/-- The aggregated row for one `(experiment, requested_qps)` group: the named
aggregations of the `.agg(...)` call followed by the derived columns. -/
def aggRowOf (mode : ServedMode) (df : List StageRecord) (k : String × ℚ) : AggRow :=
  let g := groupOf df k
  let successes := (g.map (·.successes)).sum
  let failures := (g.map (·.failures)).sum
  let duration_s := psum0 (g.map (·.send_duration_s))
  let achieved_rps_json := pmean (g.map (·.achieved_rps_json))
  let itps_json := pmean (g.map (·.input_toks_per_sec_json))
  let otps_json := pmean (g.map (·.output_toks_per_sec_json))
  let ttps_json := pmean (g.map (·.total_toks_per_sec_json))
  let input_tokens_total := (g.map (·.input_tokens_total)).sum
  let output_tokens_total := (g.map (·.output_tokens_total)).sum
  let total_completed := successes + failures
  let completed_rps_total := PFloat.div (.num total_completed) duration_s
  let completed_rps_successes := PFloat.div (.num successes) duration_s
  let output_toks_per_sec := PFloat.div (.num output_tokens_total) duration_s
  let input_toks_per_sec := PFloat.div (.num input_tokens_total) duration_s
  let total_toks_per_sec := PFloat.add output_toks_per_sec input_toks_per_sec
  { experiment := k.1
    requested_qps := k.2
    successes := successes
    failures := failures
    duration_s := duration_s
    achieved_rps_json := achieved_rps_json
    ttft_mean_s := pmean (g.map (·.ttft_mean_s))
    itl_mean_s := pmean (g.map (·.itl_mean_s))
    ttft_p50_s := pmean (g.map (·.ttft_p50_s))
    ttft_p90_s := pmean (g.map (·.ttft_p90_s))
    itl_p50_s := pmean (g.map (·.itl_p50_s))
    itl_p90_s := pmean (g.map (·.itl_p90_s))
    input_tokens_total := input_tokens_total
    output_tokens_total := output_tokens_total
    input_toks_per_sec_json := itps_json
    output_toks_per_sec_json := otps_json
    total_toks_per_sec_json := ttps_json
    total_completed := total_completed
    success_rate := PFloat.div (.num successes) (.num total_completed)
    completed_rps_total := completed_rps_total
    completed_rps_successes := completed_rps_successes
    completed_rps :=
      match mode with
      | .successes => completed_rps_successes
      | .json => achieved_rps_json
      | .total => completed_rps_total
    output_toks_per_sec := output_toks_per_sec
    input_toks_per_sec := input_toks_per_sec
    total_toks_per_sec := total_toks_per_sec
    input_toks_per_sec_plot := pfWhere itps_json.replaceInf input_toks_per_sec
    output_toks_per_sec_plot := pfWhere otps_json.replaceInf output_toks_per_sec
    total_toks_per_sec_plot := pfWhere ttps_json.replaceInf total_toks_per_sec
    norm_time_per_output_token_s :=
      if output_tokens_total > 0 then PFloat.div duration_s (.num output_tokens_total)
      else .nan }

def aggregate_per_qps (df : List StageRecord) (mode : ServedMode) (cap_served : Bool) :
    List AggRow :=
  if df.isEmpty then [] else (groupKeys df).map (aggRowOf mode df)

/-! ## `_build_summary_across_qps` (from `analyze.py`) -/

/-- One row of the per-experiment summary DataFrame.
(`ttft_delta_vs_baseline_pct_overall` is `pd.NA` when no baseline applies;
like missing float values it is modelled as `nan`.) -/
structure SummaryRow where
  experiment : String
  qps_points : ℤ
  successes : ℤ
  failures : ℤ
  duration_s : PFloat
  completed_rps_overall : PFloat
  output_tokens_total : ℤ
  input_tokens_total : ℤ
  output_toks_per_sec_overall : PFloat
  input_toks_per_sec_overall : PFloat
  ttft_mean_s_overall : PFloat
  itl_mean_s_overall : PFloat
  ttft_p50_s_overall : PFloat
  ttft_p90_s_overall : PFloat
  itl_p50_s_overall : PFloat
  itl_p90_s_overall : PFloat
  success_rate_overall : PFloat
  ttft_delta_vs_baseline_pct_overall : PFloat
deriving DecidableEq

/-- The distinct experiments of the aggregated table, in `groupby` order. -/
def expKeys (agg : List AggRow) : List String :=
  insSortBy strLeB (agg.map (·.experiment)).dedup

def expGroup (agg : List AggRow) (e : String) : List AggRow :=
  agg.filter (fun r => decide (r.experiment = e))

/-- `(agg[col] * agg["successes"]).groupby(agg["experiment"]).sum(min_count=1)`
for one experiment's group. -/
def weightedNum (g : List AggRow) (f : AggRow → PFloat) : PFloat :=
  psum1 (g.map (fun r => PFloat.mul (f r) (.num r.successes)))

/-- The summary row for one experiment, before the baseline-delta column. -/
def mkSummaryRow (agg : List AggRow) (mode : ServedMode) (e : String) : SummaryRow :=
  let g := expGroup agg e
  let total_duration := psum1 (g.map (·.duration_s))
  let succ_sum := (g.map (·.successes)).sum
  let fail_sum := (g.map (·.failures)).sum
  let total_completed := succ_sum + fail_sum
  let completed_rps_overall :=
    match mode with
    | .json =>
      PFloat.div (psum1 (g.map (fun r => PFloat.mul r.achieved_rps_json r.duration_s)))
        total_duration
    | .successes => PFloat.div (.num succ_sum) total_duration
    | .total => PFloat.div (.num total_completed) total_duration
  let out_tok_sum := (g.map (·.output_tokens_total)).sum
  let in_tok_sum := (g.map (·.input_tokens_total)).sum
  let otps_json_overall := pmean (g.map (·.output_toks_per_sec_json))
  let itps_json_overall := pmean (g.map (·.input_toks_per_sec_json))
  { experiment := e
    qps_points := ((g.map (·.requested_qps)).dedup).length
    successes := succ_sum
    failures := fail_sum
    duration_s := total_duration
    completed_rps_overall := completed_rps_overall
    output_tokens_total := out_tok_sum
    input_tokens_total := in_tok_sum
    output_toks_per_sec_overall :=
      otps_json_overall.fillna (PFloat.div (.num out_tok_sum) total_duration)
    input_toks_per_sec_overall :=
      itps_json_overall.fillna (PFloat.div (.num in_tok_sum) total_duration)
    ttft_mean_s_overall :=
      (PFloat.div (weightedNum g (·.ttft_mean_s)) (.num succ_sum)).replaceInf
    itl_mean_s_overall :=
      (PFloat.div (weightedNum g (·.itl_mean_s)) (.num succ_sum)).replaceInf
    ttft_p50_s_overall :=
      (PFloat.div (weightedNum g (·.ttft_p50_s)) (.num succ_sum)).replaceInf
    ttft_p90_s_overall :=
      (PFloat.div (weightedNum g (·.ttft_p90_s)) (.num succ_sum)).replaceInf
    itl_p50_s_overall :=
      (PFloat.div (weightedNum g (·.itl_p50_s)) (.num succ_sum)).replaceInf
    itl_p90_s_overall :=
      (PFloat.div (weightedNum g (·.itl_p90_s)) (.num succ_sum)).replaceInf
    success_rate_overall := PFloat.div (.num succ_sum) (.num total_completed)
    ttft_delta_vs_baseline_pct_overall := .nan }

/-- Fill the baseline-delta column of one row from the baseline's overall
TTFT: `((ttft - base) / base) * 100.0`. -/
def setDelta (base_ttft : PFloat) (s : SummaryRow) : SummaryRow :=
  { s with ttft_delta_vs_baseline_pct_overall :=
      PFloat.mul (PFloat.div (PFloat.sub s.ttft_mean_s_overall base_ttft) base_ttft) (.num 100) }

/-- One sort key comparison of `sort_values`: is `a` strictly before `b`
in this column (missing values last in either direction)? -/
def pfKeyLt (asc : Bool) (a b : PFloat) : Bool :=
  if a.isNaN then false
  else if b.isNaN then true
  else if asc then PFloat.ltB a b else PFloat.ltB b a

/-- `sort_values(by=[output_toks_per_sec_overall, success_rate_overall,
ttft_mean_s_overall], ascending=[False, False, True])`. -/
def summarySortLe (a b : SummaryRow) : Bool :=
  if pfKeyLt false a.output_toks_per_sec_overall b.output_toks_per_sec_overall then true
  else if pfKeyLt false b.output_toks_per_sec_overall a.output_toks_per_sec_overall then false
  else if pfKeyLt false a.success_rate_overall b.success_rate_overall then true
  else if pfKeyLt false b.success_rate_overall a.success_rate_overall then false
  else if pfKeyLt true a.ttft_mean_s_overall b.ttft_mean_s_overall then true
  else if pfKeyLt true b.ttft_mean_s_overall a.ttft_mean_s_overall then false
  else true

/-- `_build_summary_across_qps` of `analyze.py`: the one-row-per-experiment
summary with the baseline delta applied and the display sort. -/
def build_summary_across_qps (agg : List AggRow) (mode : ServedMode) (cap_served : Bool)
    (baseline : Option String) : List SummaryRow :=
  if agg.isEmpty then [] else
  let rows0 := (expKeys agg).map (mkSummaryRow agg mode)
  let rows1 :=
    match baseline with
    | some b =>
      match rows0.find? (fun s => decide (s.experiment = b)) with
      | some bs =>
        if ¬ bs.ttft_mean_s_overall.isNaN ∧ bs.ttft_mean_s_overall ≠ .num 0 then
          rows0.map (setDelta bs.ttft_mean_s_overall)
        else rows0
      | none => rows0
    | none => rows0
  insSortBy summarySortLe rows1

/-! ## `parse_epp_log_line` (from `analyze_ext.py`) -/

def matchesPattern : List (Char → Bool) → List Char → Bool
  | [], _ => true
  | _ :: _, [] => false
  | p :: ps, c :: cs => p c && matchesPattern ps cs

/-- The anchored pattern `\d{4}-\d{2}-\d{2}T\d{2}:\d{2}:\d{2}Z`
(`re.match` anchors at the start of the line). -/
def isoTsPattern : List (Char → Bool) :=
  [Char.isDigit, Char.isDigit, Char.isDigit, Char.isDigit, (· = '-'),
   Char.isDigit, Char.isDigit, (· = '-'), Char.isDigit, Char.isDigit,
   (· = 'T'), Char.isDigit, Char.isDigit, (· = ':'), Char.isDigit, Char.isDigit,
   (· = ':'), Char.isDigit, Char.isDigit, (· = 'Z')]

/-- The leading ISO-8601 timestamp of a log line, if any. -/
def matchTimestamp (line : String) : Option String :=
  if matchesPattern isoTsPattern line.data then some (String.mk (line.data.take 20)) else none

/-- `str.find(needle)`: index of the first occurrence. -/
def findSub (needle : List Char) : List Char → Option Nat
  | [] => if needle.isEmpty then some 0 else none
  | c :: cs => if needle.isPrefixOf (c :: cs) then some 0 else (findSub needle cs).map (· + 1)

/-- `str.find(target, start)`. -/
def findFromIdx (target : Char) (cs : List Char) (start : Nat) : Option Nat :=
  match (cs.drop start).findIdx? (fun c => c = target) with
  | some i => some (start + i)
  | none => none

/-- The bracket-counting loop of `parse_epp_log_line`: scan from the opening
bracket and return the index one past the matching `]`.  Only ever called
with the scan starting at a `[`, so the count stays positive until the
match. -/
def scanBrackets : List Char → Nat → Nat → Option Nat
  | [], _, _ => none
  | c :: rest, i, depth =>
    if c = '[' then scanBrackets rest (i + 1) (depth + 1)
    else if c = ']' then
      if depth = 1 then some (i + 1) else scanBrackets rest (i + 1) (depth - 1)
    else scanBrackets rest (i + 1) depth

/-- Locate `"pods":`, the `[` after it, and the matching `]`, and return the
text between the brackets (inclusive), as `parse_epp_log_line` extracts it. -/
def findPodsArray (line : String) : Option String :=
  let cs := line.data
  match findSub ("\"pods\":".data) cs with
  | none => none
  | some ps =>
    match findFromIdx '[' cs ps with
    | none => none
    | some bs =>
      match scanBrackets (cs.drop bs) bs 0 with
      | none => none
      | some be => some (String.mk ((cs.drop bs).take (be - bs)))

/-- One pod metric sample.  `timestamp` is the matched timestamp text: the
script stores `dateutil.parser.parse` of it, whose success is modelled by
the `dtparse` argument of `parse_epp_log_line` and whose value is carried
as the text it was parsed from; `pod_update_time_raw` is the raw
`UpdateTime` lookup — the script normalises it through `dateutil` with a
fallback to the line timestamp, which no claim refers to, so the raw value
is carried instead. -/
structure PodMetric where
  timestamp : String
  pod_update_time_raw : Option JVal
  pod_name : JVal
  pod_address : JVal
  waiting_queue_size : JVal
  kv_cache_usage_percent : JVal

/-- The loop body over one element of the pods array: non-dict elements are
skipped (`continue`); for a dict the identifying fields and metrics are
extracted with their defaults. -/
def mkPodSample (ts : String) (pod : JVal) : Option PodMetric :=
  match pod with
  | .obj fs =>
    some {
      timestamp := ts
      pod_update_time_raw := jLookup fs "UpdateTime"
      pod_name :=
        match objGetD fs "NamespacedName" (.obj []) with
        | .obj nfs => objGetD nfs "Name" (.str "unknown")
        | _ => .str "unknown"
      pod_address := objGetD fs "Address" (.str "unknown")
      waiting_queue_size := objGetD fs "WaitingQueueSize" (.num 0)
      kv_cache_usage_percent := objGetD fs "KVCacheUsagePercent" (.num 0) }
  | _ => none

/-- `parse_epp_log_line`: `none` models the function's `return None` and the
blanket `except` — in particular `dtparse ts = false` models
`dateutil.parser.parse(timestamp_str)` raising on a pattern-matching but
unparseable timestamp, which that `except` turns into `None`; otherwise one
sample per dict element of the pods array.  An empty sample list also
yields `none` (`return pod_metrics if pod_metrics else None`). -/
def parse_epp_log_line (loads : String → Option JVal) (dtparse : String → Bool)
    (line : String) : Option (List PodMetric) :=
  match matchTimestamp line with
  | none => none
  | some ts =>
    if dtparse ts then
      match findPodsArray line with
      | none => none
      | some ptext =>
        match loads ptext with
        | some (.arr pods) =>
          let ms := pods.filterMap (mkPodSample ts)
          if ms.isEmpty then none else some ms
        | _ => none
    else none

/-! ## `write_markdown_report_per_qps` (from `analyze.py`)

String formatting of floats (`f"{x:.3f}"` etc.) is modelled by exact decimal
rendering of the rational with round-half-to-even, `"inf"`/`"-inf"`/`"nan"`
for the special values; `f"{qps}"` (Python float `repr`) is modelled exactly
for integral values and by a fixed-precision rendering otherwise.  No claim
depends on the rendered digits. -/

def roundHalfEven (q : ℚ) : ℤ :=
  let f := Rat.floor q
  let frac := q - f
  if frac < 1/2 then f
  else if frac > 1/2 then f + 1
  else if f % 2 = 0 then f else f + 1

def padLeftZeros (s : String) (n : Nat) : String :=
  if n ≤ s.length then s else String.mk (List.replicate (n - s.length) '0') ++ s

/-- `f"{q:.{prec}f}"` for a finite value. -/
def fmtFixed (prec : Nat) (q : ℚ) : String :=
  let scaled := roundHalfEven (q * ((10 : ℚ) ^ prec))
  let sign := if scaled < 0 then "-" else ""
  let digits := padLeftZeros (toString scaled.natAbs) (prec + 1)
  if prec = 0 then sign ++ digits
  else
    sign ++ String.mk (digits.data.take (digits.length - prec)) ++ "." ++
      String.mk (digits.data.drop (digits.length - prec))

/-- `f"{x:.{prec}f}"`. -/
def fmtF (prec : Nat) : PFloat → String
  | .num q => fmtFixed prec q
  | .inf => "inf"
  | .ninf => "-inf"
  | .nan => "nan"

/-- `f"{x:.2%}"`. -/
def fmtPercent2 (x : PFloat) : String :=
  fmtF 2 (PFloat.mul x (.num 100)) ++ "%"

/-- Python `repr` of a float, for the `f"{qps}"` interpolation. -/
def pyFloatRepr (q : ℚ) : String :=
  if q.den = 1 then toString q.num ++ ".0" else fmtFixed 12 q

/-- An entry of the `charts` dict together with the facts the writer reads
from the filesystem: the relative path `os.path.relpath` computes and
whether `os.path.exists` holds for the chart file. -/
structure ChartEntry where
  title : String
  relPath : String
  present : Bool

def chartLines (charts : List ChartEntry) (imgWidth : ℤ) : List String :=
  if charts.isEmpty then [] else
  "## Charts\n" :: charts.flatMap (fun c =>
    if c.present then
      ["### " ++ c.title ++ "\n",
       "<img src=\"" ++ c.relPath ++ "\" alt=\"" ++ c.title ++ "\" width=\"" ++
         toString imgWidth ++ "\"/>\n"]
    else [])

def howToReadLines : List String :=
  ["### How to read this report (quick)\n",
   "- **Output tokens/sec** is the primary throughput metric (higher is better).\n",
   "- **Requests/sec** shows the rate of completed requests.\n",
   "- **Success Rate** reflects outcome quality, not volume.\n",
   "- **TTFT** is time to first token; **ITL** is the gap between tokens (both lower is better).\n",
   ""]

def FIELD_DESCRIPTIONS : List (String × String) :=
  [("requested_qps", "Target request rate configured for the stage (requests/sec)."),
   ("duration_s", "Total time the load generator sent requests at this QPS (seconds, aggregated)."),
   ("successes", "Number of completed requests that succeeded (aggregated)."),
   ("failures", "Number of completed requests that failed (aggregated)."),
   ("success_rate", "Fraction of completed requests that succeeded: successes / (successes + failures). This captures outcome quality, not volume of work."),
   ("completed_rps", "Completed requests per second over the send window (basis set by --served-mode): total=(successes+failures)/s, successes=successes/s, json=value recorded in the file."),
   ("output_tokens_total", "Total number of output tokens generated (from per-request files; successes only)."),
   ("input_tokens_total", "Total number of input tokens ingested (from per-request files; successes only)."),
   ("output_toks_per_sec", "Primary throughput metric: output tokens generated per second across the stage window."),
   ("input_toks_per_sec", "Input tokens processed per second across the stage window."),
   ("norm_time_per_output_token_s", "Normalized time per output token (seconds/token). Lower is better."),
   ("ttft_mean_s", "Mean time to first token across successful requests (seconds). Lower is better."),
   ("ttft_p50_s", "TTFT median (p50) across successful requests (seconds). Lower is better."),
   ("ttft_p90_s", "TTFT 90th percentile (p90) across successful requests (seconds). Lower is better."),
   ("itl_mean_s", "Mean inter-token latency across successful requests (seconds). Lower is better."),
   ("itl_p50_s", "Inter-token latency median (p50) across successful requests (seconds). Lower is better."),
   ("itl_p90_s", "Inter-token latency 90th percentile (p90) across successful requests (seconds). Lower is better."),
   ("ttft_delta_vs_baseline_pct", "TTFT change vs baseline experiment: (TTFT - baseline_TTFT) / baseline_TTFT × 100. Negative = faster/better; positive = slower."),
   ("achieved_rps_json", "Throughput value recorded inside each stage file (successes.throughput.requests_per_sec). Useful for comparison/debugging; may omit failed requests depending on how the file was produced.")]

def fieldDescLines : List String :=
  "### Field descriptions\n" ::
    (FIELD_DESCRIPTIONS.map (fun kd => "- **" ++ kd.1 ++ "** — " ++ kd.2)) ++ [""]

def tableHeaderLine : String :=
  "| Experiment | Output toks/s | Requests/s | Success Rate | TTFT mean (s) | TTFT p50/ p90 (s) | ITL mean (s) | ITL p50/ p90 (s) |"

def tableSepLine : String := "|---|---:|---:|---:|---:|---:|---:|---:|"

def cellOrEmpty (prec : Nat) (x : PFloat) : String :=
  if x.isNaN then "" else fmtF prec x

def summaryRowLine (r : SummaryRow) : String :=
  let toks := cellOrEmpty 1 r.output_toks_per_sec_overall
  let rps := cellOrEmpty 3 r.completed_rps_overall
  let sr := if ¬ r.success_rate_overall.isNaN then fmtPercent2 r.success_rate_overall else "n/a"
  let ttft := cellOrEmpty 3 r.ttft_mean_s_overall
  let itl := cellOrEmpty 3 r.itl_mean_s_overall
  let ttft_pct :=
    if r.ttft_p50_s_overall.isNaN || r.ttft_p90_s_overall.isNaN then ""
    else fmtF 3 r.ttft_p50_s_overall ++ "/" ++ fmtF 3 r.ttft_p90_s_overall
  let itl_pct :=
    if r.itl_p50_s_overall.isNaN || r.itl_p90_s_overall.isNaN then ""
    else fmtF 4 r.itl_p50_s_overall ++ "/" ++ fmtF 3 r.itl_p90_s_overall
  "| " ++ r.experiment ++ " | " ++ toks ++ " | " ++ rps ++ " | " ++ sr ++ " | " ++ ttft ++
    " | " ++ ttft_pct ++ " | " ++ itl ++ " | " ++ itl_pct ++ " |"

def summaryLines (agg : List AggRow) (mode : ServedMode) (cap_served : Bool)
    (baseline : Option String) : List String :=
  let summary := build_summary_across_qps agg mode cap_served baseline
  ["### Summary across QPS\n", "", tableHeaderLine, tableSepLine] ++
    summary.map summaryRowLine

def aggRowLine (r : AggRow) : String :=
  let toks := cellOrEmpty 1 r.output_toks_per_sec_plot
  let rps := cellOrEmpty 3 r.completed_rps
  let sr := if ¬ r.success_rate.isNaN then fmtPercent2 r.success_rate else "n/a"
  let ttft := cellOrEmpty 3 r.ttft_mean_s
  let itl := cellOrEmpty 3 r.itl_mean_s
  let ttft_pct :=
    if r.ttft_p50_s.isNaN || r.ttft_p90_s.isNaN then ""
    else fmtF 3 r.ttft_p50_s ++ "/" ++ fmtF 3 r.ttft_p90_s
  let itl_pct :=
    if r.itl_p50_s.isNaN || r.itl_p90_s.isNaN then ""
    else fmtF 4 r.itl_p50_s ++ "/" ++ fmtF 3 r.itl_p90_s
  "| " ++ r.experiment ++ " | " ++ toks ++ " | " ++ rps ++ " | " ++ sr ++ " | " ++ ttft ++
    " | " ++ ttft_pct ++ " | " ++ itl ++ " | " ++ itl_pct ++ " |"

/-- `sort_values(by=["output_toks_per_sec", "success_rate", "ttft_mean_s"],
ascending=[False, False, True])` inside the per-QPS tables. -/
def aggSortLe (a b : AggRow) : Bool :=
  if pfKeyLt false a.output_toks_per_sec b.output_toks_per_sec then true
  else if pfKeyLt false b.output_toks_per_sec a.output_toks_per_sec then false
  else if pfKeyLt false a.success_rate b.success_rate then true
  else if pfKeyLt false b.success_rate a.success_rate then false
  else if pfKeyLt true a.ttft_mean_s b.ttft_mean_s then true
  else if pfKeyLt true b.ttft_mean_s a.ttft_mean_s then false
  else true

def perQpsLines (agg : List AggRow) : List String :=
  "\n## Per-QPS Results (sorted by **Output toks/s**, then **Success Rate**, then **TTFT**)\n" ::
  (insSortBy (fun a b => decide (a ≤ b)) ((agg.map (·.requested_qps)).dedup)).flatMap (fun q =>
    let qdf := insSortBy aggSortLe (agg.filter (fun r => decide (r.requested_qps = q)))
    ["\n### QPS = " ++ pyFloatRepr q ++ "\n", "", tableHeaderLine, tableSepLine] ++
      qdf.map aggRowLine)

def profileLines (profile : Option String) : List String :=
  match profile with
  | some text =>
    let t := if text = "" then "(file unreadable)" else text
    ["```yaml", pyRstrip t, "```\n"]
  | none => ["_No profile YAML found._\n"]

def eppConfigLines (epp : List (String × String)) : List String :=
  let sortedEpp := insSortBy (fun a b => strLeB a.1 b.1) epp
  if sortedEpp.isEmpty then ["_No epp_config.yaml files found under experiments._\n"]
  else sortedEpp.flatMap (fun lt =>
    let t := if lt.2 = "" then "(file unreadable)" else lt.2
    ["**" ++ lt.1 ++ "**\n", "```yaml", pyRstrip t, "```\n"])

/-- The trailing Configuration section, emitted whether or not data was
found.  The profile argument is the text read from the discovered profile
YAML (`none` when no profile was found), and the config list pairs each
experiment label with its `epp_config.yaml` text. -/
def configurationLines (profile : Option String) (epp : List (String × String)) : List String :=
  ["\n## Configuration\n", "### Workload profile (shown once)\n"] ++ profileLines profile ++
    ["### EPP config per experiment\n"] ++ eppConfigLines epp

/-- `write_markdown_report_per_qps` of `analyze.py`, as the list of lines it
joins with newlines and writes to `benchmark_report.md` (the default title is
never overridden by the script). -/
def write_markdown_report_per_qps (agg : List AggRow) (charts : List ChartEntry)
    (profile : Option String) (epp : List (String × String)) (imgWidth : ℤ)
    (baseline : Option String) (mode : ServedMode) (cap_served : Bool) : List String :=
  ["# vLLM Benchmark Summary\n"] ++
  (if agg.isEmpty then ["_No data found._\n"]
   else chartLines charts imgWidth ++ howToReadLines ++ fieldDescLines ++
     summaryLines agg mode cap_served baseline ++ perQpsLines agg) ++
  configurationLines profile epp

/-- The percentile stored in a stage JSON document, read along the same
defaulted path the script uses
(`successes` → `latency` → `grp` → `key`): this is "the stage JSON's
corresponding percentile" of the claim about the fallback logic. -/
def stageJsonPerc (data : JVal) (grp key : String) : Except Unit (Option JVal) := do
  let succ := pyOr (← dictGetE data "successes" (.obj [])) (.obj [])
  let lat := pyOr (← dictGetE succ "latency" (.obj [])) (.obj [])
  let g := pyOr (← dictGetE lat grp (.obj [])) (.obj [])
  dictGetNE g key

/-! ## Concrete inputs used by witnesses and counterexamples -/

/-- A well-formed stage file whose JSON document is an empty object. -/
def emptyContentStage : StageFileInput :=
  { experiment := "exp1", stage_index := some 1,
    source_path := "exp1/stage_1_lifecycle_metrics.json",
    content := some (.obj []), per_request := none }

/-- A stage file whose content is not valid JSON (`json.load` raises). -/
def malformedStage : StageFileInput :=
  { experiment := "exp1", stage_index := some 2,
    source_path := "exp1/stage_2_lifecycle_metrics.json",
    content := none, per_request := none }

/-- A stage file reporting a negative `successes.count`. -/
def negCountStage : StageFileInput :=
  { experiment := "exp1", stage_index := some 1,
    source_path := "exp1/stage_1_lifecycle_metrics.json",
    content := some (.obj [("successes", .obj [("count", .num (-1))]),
      ("failures", .obj [("count", .num 2)])]),
    per_request := none }

/-- A stage file whose TTFT p50 percentile is present and non-zero, with no
companion per-request file. -/
def c4Stage : StageFileInput :=
  { experiment := "exp1", stage_index := some 1,
    source_path := "exp1/stage_1_lifecycle_metrics.json",
    content := some (.obj [("successes", .obj [("latency",
      .obj [("time_to_first_token", .obj [("p50", .num 5)])])])]),
    per_request := none }

/-- The final state of a loop body that may abort: both the normal and the
exceptional outcome carry the accumulated state. -/
def exVal {α : Type} : Except α α → α
  | .ok a => a
  | .error a => a

/-- Invariant of `_read_per_request_stats`'s loop: every collected TTFT and
ITL sample is non-negative. -/
def accNonneg (acc : PRAcc) : Prop :=
  (∀ x ∈ acc.ttftS, 0 ≤ x) ∧ ∀ x ∈ acc.itlS, 0 ≤ x

/-- A per-request log entry: one successful request starting at time `0`
with a single output token at time `1`. -/
def c9Req : JVal :=
  .obj [("start_time", .num 0), ("info", .obj [("output_token_times", .arr [.num 1])])]

/-- A JSON parser fixture mapping the per-request text `"[r]"` to the
one-request array. -/
def c9loads : String → Option JVal :=
  fun s => if s = "[r]" then some (.arr [c9Req]) else none

/-- The field list of a JSON object (`[]` for non-objects; used only under
an `isObj` guard). -/
def JVal.objFields : JVal → List (String × JVal)
  | .obj fs => fs
  | _ => []

/-- A JSON parser fixture for the EPP log lines below: `"[p]"` parses to an
array holding one (empty) pod object, `"[]"` to an empty array. -/
def c6loads : String → Option JVal := fun s =>
  if s = "[p]" then some (.arr [.obj []])
  else if s = "[]" then some (.arr []) else none

/-- A datetime-parser fixture on which every matched timestamp converts
without raising. -/
def c6dtparse : String → Bool := fun _ => true

/-- An EPP log line with a timestamp and a one-pod `pods` array. -/
def c6goodLine : String := "2024-01-01T00:00:00Z info \"pods\": [p] tail"

/-- An EPP log line with a timestamp and an empty `pods` array. -/
def c6emptyLine : String := "2024-01-01T00:00:00Z info \"pods\": [] tail"

/-- A stage record whose `requested_qps` is missing (NaN). -/
def nanQpsRec : StageRecord :=
  { experiment := "exp1", stage_index := some 1, requested_qps := .nan,
    send_duration_s := .nan, achieved_rps_json := .nan, input_toks_per_sec_json := .nan,
    output_toks_per_sec_json := .nan, total_toks_per_sec_json := .nan, ttft_mean_s := .nan,
    ttft_p50_s := .nan, ttft_p90_s := .nan, itl_mean_s := .nan, itl_p50_s := .nan,
    itl_p90_s := .nan, request_latency_p50_s := .nan, successes := 3, failures := 1,
    success_rate := none, input_tokens_total := 0, output_tokens_total := 0,
    source_path := "p" }

/-- A stage record with `requested_qps = 2`. -/
def q2Rec : StageRecord := { nanQpsRec with requested_qps := .num 2 }

/-- An aggregated row with simple finite statistics, for the summary
witness. -/
def c3Row : AggRow :=
  { experiment := "exp1", requested_qps := 2, successes := 3, failures := 0,
    duration_s := .num 10, achieved_rps_json := .num 1, ttft_mean_s := .num 2,
    itl_mean_s := .num 4, ttft_p50_s := .num 2, ttft_p90_s := .num 3,
    itl_p50_s := .num 4, itl_p90_s := .num 5, input_tokens_total := 30,
    output_tokens_total := 60, input_toks_per_sec_json := .num 3,
    output_toks_per_sec_json := .num 6, total_toks_per_sec_json := .num 9,
    total_completed := 3, success_rate := .num 1, completed_rps_total := .num (3/10),
    completed_rps_successes := .num (3/10), completed_rps := .num (3/10),
    output_toks_per_sec := .num 6, input_toks_per_sec := .num 3,
    total_toks_per_sec := .num 9, input_toks_per_sec_plot := .num 3,
    output_toks_per_sec_plot := .num 6, total_toks_per_sec_plot := .num 9,
    norm_time_per_output_token_s := .num (1/6) }

/-! ## Helper lemmas -/

theorem insertLe_perm {α : Type} (le : α → α → Bool) (a : α) (l : List α) :
    (insertLe le a l).Perm (a :: l) := by
  induction l with
  | nil => simp [insertLe]
  | cons b bs ih =>
    simp only [insertLe]
    split
    · exact List.Perm.refl _
    · exact (List.Perm.cons b ih).trans (List.Perm.swap a b bs)

theorem insSortBy_perm {α : Type} (le : α → α → Bool) (l : List α) :
    (insSortBy le l).Perm l := by
  induction l with
  | nil => simp [insSortBy]
  | cons a as ih => exact (insertLe_perm le a (insSortBy le as)).trans (List.Perm.cons a ih)

theorem mem_insSortBy {α : Type} (le : α → α → Bool) (l : List α) (a : α) :
    a ∈ insSortBy le l ↔ a ∈ l :=
  (insSortBy_perm le l).mem_iff

theorem dropWhile_head_false {α : Type} (p : α → Bool) (l : List α) (a : α) (as : List α)
    (h : l.dropWhile p = a :: as) : p a = false := by
  induction l with
  | nil => simp [List.dropWhile] at h
  | cons c cs ih =>
    rw [List.dropWhile_cons] at h
    by_cases hc : p c
    · rw [if_pos hc] at h; exact ih h
    · rw [if_neg hc] at h
      obtain ⟨rfl, -⟩ := List.cons.injEq .. ▸ h
      simpa using hc

/-- A right-stripped string never ends with a newline. -/
theorem pyRstrip_data_ne (s : String) (l : List Char) :
    (pyRstrip s).data ≠ l ++ ['\n'] := by
  intro h
  have h2 : s.data.reverse.dropWhile Char.isWhitespace = '\n' :: l.reverse := by
    have := congrArg List.reverse h
    simpa [pyRstrip] using this
  have := dropWhile_head_false _ _ _ _ h2
  simp at this

theorem pyRstrip_ne (s : String) (b : String) (l : List Char) (hb : b.data = l ++ ['\n']) :
    pyRstrip s ≠ b := by
  intro h
  exact pyRstrip_data_ne s l (by rw [← hb]; exact congrArg String.data h)

theorem mem_profileLines {l : String} (profile : Option String) (h : l ∈ profileLines profile) :
    l = "```yaml" ∨ l = "```\n" ∨ l = "_No profile YAML found._\n" ∨ ∃ s, l = pyRstrip s := by
  cases profile with
  | none =>
    simp [profileLines] at h
    simp [h]
  | some text =>
    simp [profileLines] at h
    rcases h with h | h | h
    · exact Or.inl h
    · exact Or.inr (Or.inr (Or.inr ⟨_, h⟩))
    · exact Or.inr (Or.inl h)

theorem mem_eppConfigLines {l : String} (epp : List (String × String))
    (h : l ∈ eppConfigLines epp) :
    l = "_No epp_config.yaml files found under experiments._\n" ∨ l = "```yaml" ∨ l = "```\n" ∨
    (∃ s, l = pyRstrip s) ∨ ∃ lab, l = "**" ++ lab ++ "**\n" := by
  have h2 : l ∈ (if (insSortBy (fun a b => strLeB a.1 b.1) epp).isEmpty = true
      then ["_No epp_config.yaml files found under experiments._\n"]
      else (insSortBy (fun a b => strLeB a.1 b.1) epp).flatMap fun lt =>
        ["**" ++ lt.1 ++ "**\n", "```yaml",
          pyRstrip (if lt.2 = "" then "(file unreadable)" else lt.2), "```\n"]) := h
  clear h
  split at h2
  · simp at h2
    simp [h2]
  · simp only [List.mem_flatMap] at h2
    obtain ⟨a, -, hm⟩ := h2
    simp only [List.mem_cons, List.not_mem_nil, or_false] at hm
    rcases hm with hm | hm | hm | hm
    · exact Or.inr (Or.inr (Or.inr (Or.inr ⟨_, hm⟩)))
    · exact Or.inr (Or.inl hm)
    · exact Or.inr (Or.inr (Or.inr (Or.inl ⟨_, hm⟩)))
    · exact Or.inr (Or.inr (Or.inl hm))

theorem mem_configurationLines {l : String} (profile : Option String)
    (epp : List (String × String)) (h : l ∈ configurationLines profile epp) :
    l = "\n## Configuration\n" ∨ l = "### Workload profile (shown once)\n" ∨
    l = "### EPP config per experiment\n" ∨ l = "```yaml" ∨ l = "```\n" ∨
    l = "_No profile YAML found._\n" ∨
    l = "_No epp_config.yaml files found under experiments._\n" ∨
    (∃ s, l = pyRstrip s) ∨ ∃ lab, l = "**" ++ lab ++ "**\n" := by
  unfold configurationLines at h
  rcases List.mem_append.mp h with h1 | h4
  · rcases List.mem_append.mp h1 with h2 | h3
    · rcases List.mem_append.mp h2 with ha | hp
      · simp only [List.mem_cons, List.not_mem_nil, or_false] at ha
        rcases ha with h | h
        · exact Or.inl h
        · exact Or.inr (Or.inl h)
      · rcases mem_profileLines profile hp with h | h | h | h
        · exact Or.inr (Or.inr (Or.inr (Or.inl h)))
        · exact Or.inr (Or.inr (Or.inr (Or.inr (Or.inl h))))
        · exact Or.inr (Or.inr (Or.inr (Or.inr (Or.inr (Or.inl h)))))
        · exact Or.inr (Or.inr (Or.inr (Or.inr (Or.inr (Or.inr (Or.inr (Or.inl h)))))))
    · simp only [List.mem_cons, List.not_mem_nil, or_false] at h3
      exact Or.inr (Or.inr (Or.inl h3))
  · rcases mem_eppConfigLines epp h4 with h | h | h | h | h
    · exact Or.inr (Or.inr (Or.inr (Or.inr (Or.inr (Or.inr (Or.inl h))))))
    · exact Or.inr (Or.inr (Or.inr (Or.inl h)))
    · exact Or.inr (Or.inr (Or.inr (Or.inr (Or.inl h))))
    · exact Or.inr (Or.inr (Or.inr (Or.inr (Or.inr (Or.inr (Or.inr (Or.inl h)))))))
    · exact Or.inr (Or.inr (Or.inr (Or.inr (Or.inr (Or.inr (Or.inr (Or.inr h)))))))

/-! ## Claims -/

/-- C7: For every stage directory with no companion
`per_request_lifecycle_metrics.json` file, reading per-request stats returns
`input_tokens_total = 0`, `output_tokens_total = 0` and `None` for all four
computed TTFT/ITL percentiles, without raising an error. -/
theorem read_per_request_stats_missing_file (loads : String → Option JVal) :
    read_per_request_stats loads none =
      { input_tokens_total := 0, output_tokens_total := 0,
        ttft_p50_s_computed := none, ttft_p90_s_computed := none,
        itl_p50_s_computed := none, itl_p90_s_computed := none } := rfl

/-- C5: In the NDJSON fallback scan, every line that fails to parse as JSON
(after stripping whitespace and trailing commas, and ignoring blank and bare
bracket lines) is skipped, and the records produced from the remaining lines
are exactly those produced if the unparseable lines were absent. -/
theorem ndjson_unparseable_lines_skipped (loads : String → Option JVal) (lines : List String) :
    (∀ l, ndjsonUnparseable loads l = true → ndjsonLines loads [l] = []) ∧
    ndjsonLines loads lines =
      ndjsonLines loads (lines.filter (fun l => !ndjsonUnparseable loads l)) := by
  constructor
  · intro l hl
    simp only [ndjsonUnparseable, Bool.and_eq_true, Bool.not_eq_true',
      Option.isNone_iff_eq_none] at hl
    simp [ndjsonLines, hl.1, hl.2]
  · induction lines with
    | nil => rfl
    | cons a as ih =>
      by_cases ha : ndjsonUnparseable loads a = true
      · have hskip : ndjsonSkip (ndjsonClean a) = false := by
          simp only [ndjsonUnparseable, Bool.and_eq_true, Bool.not_eq_true',
            Option.isNone_iff_eq_none] at ha
          exact ha.1
        have hnone : loads (ndjsonClean a) = none := by
          simp only [ndjsonUnparseable, Bool.and_eq_true, Bool.not_eq_true',
            Option.isNone_iff_eq_none] at ha
          exact ha.2
        simpa [ndjsonLines, List.filter_cons, ha, hskip, hnone] using ih
      · have ha2 : ndjsonUnparseable loads a = false := by
          simpa using ha
        by_cases hskip : ndjsonSkip (ndjsonClean a) = true
        · simpa [ndjsonLines, List.filter_cons, ha2, hskip] using ih
        · have hskip2 : ndjsonSkip (ndjsonClean a) = false := by
            simpa using hskip
          rcases h3 : loads (ndjsonClean a) with - | v
          · exact absurd (by simp [ndjsonUnparseable, hskip2, h3]) ha
          · simpa [ndjsonLines, List.filter_cons, ha2, hskip2, h3] using ih

/-- Witness for C5 at a concrete unparseable line. -/
theorem ndjson_unparseable_lines_skipped_witness :
    ndjsonLines (fun _ => none) ["xyz"] = [] :=
  (ndjson_unparseable_lines_skipped (fun _ => none) ["xyz"]).1 "xyz" (by decide)

theorem starStar_head (lab : String) : ("**" ++ lab ++ "**\n").data.head? = some '*' := by
  simp [String.data_append, show ("**").data = ['*', '*'] from rfl]

theorem starStar_ne_of_head (B : String) (c : Char) (hB : B.data.head? = some c)
    (hc : c ≠ '*') : ∀ lab, B ≠ "**" ++ lab ++ "**\n" := by
  intro lab h
  rw [h, starStar_head lab] at hB
  exact hc (Option.some.inj hB).symm

/-- The `"\n### QPS = ..."` header differs from any string whose first four
characters are not `"\n###"`. -/
theorem qpsHeader_ne (q : ℚ) (t : String) (h0 : t.data.take 4 ≠ ['\n', '#', '#', '#']) :
    ("\n### QPS = " ++ pyFloatRepr q ++ "\n") ≠ t := by
  intro h
  apply h0
  rw [← h]
  rfl

theorem qpsHeader_head (q : ℚ) :
    ("\n### QPS = " ++ pyFloatRepr q ++ "\n").data.head? = some '\n' := rfl

/-- Membership refuter for the empty-table report skeleton. -/
theorem noDataSkeleton_not_mem (profile : Option String) (epp : List (String × String))
    (B : String) (lB : List Char) (hB : B.data = lB ++ ['\n'])
    (n1 : B ≠ "# vLLM Benchmark Summary\n") (n2 : B ≠ "_No data found._\n")
    (n3 : B ≠ "\n## Configuration\n") (n4 : B ≠ "### Workload profile (shown once)\n")
    (n5 : B ≠ "### EPP config per experiment\n") (n6 : B ≠ "```yaml") (n7 : B ≠ "```\n")
    (n8 : B ≠ "_No profile YAML found._\n")
    (n9 : B ≠ "_No epp_config.yaml files found under experiments._\n")
    (hstar : ∀ lab, B ≠ "**" ++ lab ++ "**\n") :
    B ∉ (["# vLLM Benchmark Summary\n", "_No data found._\n"] ++
      configurationLines profile epp) := by
  intro hmem
  rcases List.mem_append.mp hmem with h | h
  · simp only [List.mem_cons, List.not_mem_nil, or_false] at h
    rcases h with h | h
    · exact n1 h
    · exact n2 h
  · rcases mem_configurationLines profile epp h with
      h | h | h | h | h | h | h | ⟨s, h⟩ | ⟨lab, h⟩
    · exact n3 h
    · exact n4 h
    · exact n5 h
    · exact n6 h
    · exact n7 h
    · exact n8 h
    · exact n9 h
    · exact pyRstrip_ne s B lB hB h.symm
    · exact hstar lab h

/-- C8: When the aggregated table is empty, the markdown report is exactly
the title, the `_No data found._` placeholder and the trailing Configuration
section: it contains the placeholder line, no Charts section, no
`Summary across QPS` section, and no per-QPS `### QPS = ...` headers. -/
theorem write_markdown_report_no_data (charts : List ChartEntry) (profile : Option String)
    (epp : List (String × String)) (imgWidth : ℤ) (baseline : Option String)
    (mode : ServedMode) (cap_served : Bool) :
    write_markdown_report_per_qps [] charts profile epp imgWidth baseline mode cap_served =
      ["# vLLM Benchmark Summary\n", "_No data found._\n"] ++
        configurationLines profile epp ∧
    "_No data found._\n" ∈
      write_markdown_report_per_qps [] charts profile epp imgWidth baseline mode cap_served ∧
    "## Charts\n" ∉
      write_markdown_report_per_qps [] charts profile epp imgWidth baseline mode cap_served ∧
    "### Summary across QPS\n" ∉
      write_markdown_report_per_qps [] charts profile epp imgWidth baseline mode cap_served ∧
    ∀ q : ℚ, ("\n### QPS = " ++ pyFloatRepr q ++ "\n") ∉
      write_markdown_report_per_qps [] charts profile epp imgWidth baseline mode cap_served := by
  have heq : write_markdown_report_per_qps [] charts profile epp imgWidth baseline mode
      cap_served =
      ["# vLLM Benchmark Summary\n", "_No data found._\n"] ++ configurationLines profile epp := by
    simp [write_markdown_report_per_qps]
  refine ⟨heq, ?_, ?_, ?_, ?_⟩
  · rw [heq]; simp
  · rw [heq]
    refine noDataSkeleton_not_mem profile epp _ "## Charts".data (by decide)
      (by decide) (by decide) (by decide) (by decide) (by decide) (by decide) (by decide)
      (by decide) (by decide) (starStar_ne_of_head _ '#' rfl (by decide))
  · rw [heq]
    refine noDataSkeleton_not_mem profile epp _ "### Summary across QPS".data (by decide)
      (by decide) (by decide) (by decide) (by decide) (by decide) (by decide) (by decide)
      (by decide) (by decide) (starStar_ne_of_head _ '#' rfl (by decide))
  · rw [heq]
    intro q
    refine noDataSkeleton_not_mem profile epp _
      ("\n### QPS = ".data ++ (pyFloatRepr q).data) (by simp [String.data_append])
      (qpsHeader_ne q _ (by decide)) (qpsHeader_ne q _ (by decide))
      (qpsHeader_ne q _ (by decide)) (qpsHeader_ne q _ (by decide))
      (qpsHeader_ne q _ (by decide)) (qpsHeader_ne q _ (by decide))
      (qpsHeader_ne q _ (by decide)) (qpsHeader_ne q _ (by decide))
      (qpsHeader_ne q _ (by decide))
      (starStar_ne_of_head _ '\n' (qpsHeader_head q) (by decide))

theorem except_bind_eq_ok {α β : Type} (e : Except Unit α) (f : α → Except Unit β) (b : β) :
    (e >>= f) = .ok b ↔ ∃ a, e = .ok a ∧ f a = .ok b := by
  cases e with
  | error u =>
    constructor
    · intro h; exact Except.noConfusion h
    · rintro ⟨a, ha, -⟩; exact Except.noConfusion ha
  | ok a =>
    constructor
    · intro h; exact ⟨a, rfl, h⟩
    · rintro ⟨a2, ha, hf⟩
      rw [← Except.ok.inj ha] at hf
      exact hf

/-- C10 (amended): the stage record's `success_rate` is `None` exactly when
`successes + failures = 0`, and otherwise equals
`successes / (successes + failures)`; the division is never performed with a
zero denominator, and the quotient lies in `[0, 1]` whenever both counts are
non-negative.  (The claim's unconditional `[0, 1]` bound fails when the
stage JSON carries a negative count.) -/
theorem parse_stage_success_rate (loads : String → Option JVal) (f : StageFileInput)
    (rec : StageRecord) (h : parse_stage_file loads f = Except.ok rec) :
    (rec.success_rate = none ↔ rec.successes + rec.failures = 0) ∧
    (∀ x, rec.success_rate = some x →
      x = (rec.successes : ℚ) / ((rec.successes + rec.failures : ℤ) : ℚ)) ∧
    (0 ≤ rec.successes → 0 ≤ rec.failures →
      ∀ x, rec.success_rate = some x → 0 ≤ x ∧ x ≤ 1) := by
  rcases hc : f.content with - | data
  · rw [parse_stage_file, hc] at h
    exact absurd h (by intro hh; exact Except.noConfusion hh)
  rw [parse_stage_file, hc] at h
  simp only [except_bind_eq_ok] at h
  obtain ⟨y, hy, g1, hg1, g2, hg2, g3, hg3, g4, hg4, g5, hg5, g6, hg6, g7, hg7,
    g8, hg8, v1, hv1, v2, hv2, v3, hv3, c1, hc1, sN, hsN, c2, hc2, fN, hfN,
    r1, hr1, r2, hr2, r3, hr3, r4, hr4, p1, hp1, p2, hp2, p3, hp3, p4, hp4,
    m1, hm1, m2, hm2, m3, hm3, q1, hq1, d1, hd1, a1, ha1, hfin⟩ := h
  obtain rfl := Except.ok.inj hfin
  refine ⟨?_, ?_, ?_⟩
  · by_cases ht : sN + fN = 0 <;> simp [ht]
  · intro x hx
    by_cases ht : sN + fN = 0
    · simp [ht] at hx
    · simp only [ht, if_neg, ne_eq, not_false_iff, if_true, Option.some.injEq] at hx
      simpa using hx.symm
  · intro hs hf x hx
    have hs2 : (0 : ℤ) ≤ sN := hs
    have hf2 : (0 : ℤ) ≤ fN := hf
    by_cases ht : sN + fN = 0
    · simp [ht] at hx
    · simp only [ht, ne_eq, not_false_iff, if_true, Option.some.injEq] at hx
      have htpos : (0 : ℤ) < sN + fN := lt_of_le_of_ne (by omega) (Ne.symm ht)
      have htq : (0 : ℚ) < ((sN + fN : ℤ) : ℚ) := by exact_mod_cast htpos
      have hsq : (0 : ℚ) ≤ (sN : ℚ) := by exact_mod_cast hs2
      constructor
      · rw [← hx]
        positivity
      · rw [← hx]
        rw [div_le_one htq]
        have hle : sN ≤ sN + fN := by omega
        exact_mod_cast hle

/-- C10 counterexample: on a stage file with `successes.count = -1` and
`failures.count = 2` the parse succeeds and `success_rate = -1`, which does
not lie in `[0, 1]` — refuting the claim's unconditional range assertion. -/
theorem parse_stage_success_rate_counterexample :
    (parse_stage_file (fun _ => none) negCountStage).map (fun r => r.success_rate) =
      Except.ok (some (-1 : ℚ)) ∧ ¬ (0 : ℚ) ≤ (-1 : ℚ) := by
  constructor
  · have h : (parse_stage_file (fun _ => none) negCountStage).map (fun r => r.success_rate) =
        Except.ok (some (((-1 : ℤ) : ℚ) / ((1 : ℤ) : ℚ))) := rfl
    rw [h]
    norm_num
  · norm_num

/-- Witness for C10 at a stage file with no completed requests:
`success_rate` is `None`. -/
theorem parse_stage_success_rate_witness :
    ∃ rec, parse_stage_file (fun _ => none) emptyContentStage = Except.ok rec ∧
      rec.success_rate = none := by
  refine ⟨_, rfl, ?_⟩
  exact (parse_stage_success_rate (fun _ => none) emptyContentStage _ rfl).1.mpr (by decide)

theorem parse_stage_file_malformed (loads : String → Option JVal) (f : StageFileInput)
    (hc : f.content = none) : parse_stage_file loads f = .error () := by
  rw [parse_stage_file, hc]
  rfl

/-- C1 (amended): a stage metrics file whose content is not valid JSON is
not skipped: `json.load` raises, the exception propagates out of the
`build_stage_df` list comprehension, and no stage records are built at
all. -/
theorem build_stage_df_malformed_raises (loads : String → Option JVal)
    (files : List StageFileInput) (h : ∃ f ∈ files, f.content = none) :
    build_stage_df loads files = .error () := by
  obtain ⟨f, hf, hc⟩ := h
  suffices hs : files.mapM (parse_stage_file loads) = .error () by
    rw [build_stage_df, hs]
    rfl
  induction files with
  | nil => simp at hf
  | cons a as ih =>
    rw [List.mapM_cons]
    rcases List.mem_cons.mp hf with heq | hf2
    · rw [parse_stage_file_malformed loads a (heq ▸ hc)]
      rfl
    · cases hp : parse_stage_file loads a with
      | error e =>
        cases e
        rfl
      | ok r =>
        have hs2 := ih hf2
        rw [hs2]
        rfl

/-- Witness for C1 (amended) at a concrete pair of files. -/
theorem build_stage_df_malformed_raises_witness :
    build_stage_df (fun _ => none) [emptyContentStage, malformedStage] = .error () :=
  build_stage_df_malformed_raises (fun _ => none) [emptyContentStage, malformedStage]
    ⟨malformedStage, by simp, rfl⟩

/-- C1 counterexample: adding a malformed stage file to a well-formed one
turns the whole build into an error instead of leaving the well-formed
file's record unaffected — the file is not skipped. -/
theorem build_stage_df_malformed_counterexample :
    build_stage_df (fun _ => none) [emptyContentStage, malformedStage] = .error () ∧
    ∃ rows, build_stage_df (fun _ => none) [emptyContentStage] = .ok rows ∧ rows ≠ [] := by
  refine ⟨rfl, ⟨_, rfl, ?_⟩⟩
  intro hcon
  exact List.noConfusion hcon

theorem percFallback_cases (raw : Option JVal) (comp : Option ℚ) (out : Option JVal)
    (h : percFallback raw comp = .ok out) :
    (((raw = none ∨ raw = some (JVal.num 0)) ∧ comp.isSome) →
      ∃ c, comp = some c ∧ out = some (JVal.num c)) ∧
    (¬ ((raw = none ∨ raw = some (JVal.num 0)) ∧ comp.isSome) → out = raw) := by
  cases raw with
  | none =>
    cases comp with
    | none =>
      simp only [percFallback, Option.isSome_none, Bool.false_eq_true, if_false,
        Except.ok.injEq] at h
      constructor
      · rintro ⟨-, hS⟩; simp at hS
      · rintro -; exact h.symm
    | some c =>
      simp only [percFallback, Option.isSome_some, if_true, Option.map_some,
        Except.ok.injEq] at h
      constructor
      · rintro -; exact ⟨c, rfl, h.symm⟩
      · intro hcon; exact absurd ⟨Or.inl rfl, rfl⟩ hcon
  | some v =>
    cases v with
    | num q =>
      simp only [percFallback, pyFloatE] at h
      by_cases hq : q = 0
      · subst hq
        cases comp with
        | none =>
          simp only [Option.isSome_none, Bool.false_eq_true, and_false, if_false,
            Except.ok.injEq] at h
          constructor
          · rintro ⟨-, hS⟩; simp at hS
          · rintro -; exact h.symm
        | some c =>
          simp only [Option.isSome_some, and_true, if_pos rfl, Option.map_some,
            Except.ok.injEq] at h
          constructor
          · rintro -; exact ⟨c, rfl, h.symm⟩
          · intro hcon; exact absurd ⟨Or.inr rfl, rfl⟩ hcon
      · have hcond : ¬ (q = 0 ∧ comp.isSome = true) := fun hx => hq hx.1
        rw [if_neg hcond] at h
        have hout : out = some (JVal.num q) := (Except.ok.inj h).symm
        constructor
        · rintro ⟨hl | hl, -⟩
          · exact absurd hl (by simp)
          · exact absurd (JVal.num.inj (Option.some.inj hl)) hq
        · rintro -; exact hout
    | null => simp [percFallback, pyFloatE] at h
    | bool b => simp [percFallback, pyFloatE] at h
    | str s => simp [percFallback, pyFloatE] at h
    | arr es => simp [percFallback, pyFloatE] at h
    | obj fs => simp [percFallback, pyFloatE] at h

/-- C4: For every stage file, the stage record's `ttft_p50_s` (likewise
`ttft_p90_s`, `itl_p50_s`, `itl_p90_s`) equals the percentile recomputed
from the companion per-request log exactly when the stage JSON's
corresponding percentile is absent or equals `0.0` and the recomputed value
exists; in every other case it equals the value read from the stage JSON. -/
theorem parse_stage_percentile_fallback (loads : String → Option JVal) (f : StageFileInput)
    (rec : StageRecord) (data : JVal) (t50 t90 i50 i90 : Option JVal)
    (h : parse_stage_file loads f = Except.ok rec) (hd : f.content = some data)
    (h50 : stageJsonPerc data "time_to_first_token" "p50" = .ok t50)
    (h90 : stageJsonPerc data "time_to_first_token" "p90" = .ok t90)
    (hi50 : stageJsonPerc data "inter_token_latency" "p50" = .ok i50)
    (hi90 : stageJsonPerc data "inter_token_latency" "p90" = .ok i90) :
    ((((t50 = none ∨ t50 = some (JVal.num 0)) ∧
        ((read_per_request_stats loads f.per_request).ttft_p50_s_computed).isSome) →
      ∃ c, (read_per_request_stats loads f.per_request).ttft_p50_s_computed = some c ∧
        rec.ttft_p50_s = PFloat.num c) ∧
     (¬ ((t50 = none ∨ t50 = some (JVal.num 0)) ∧
        ((read_per_request_stats loads f.per_request).ttft_p50_s_computed).isSome) →
      rec.ttft_p50_s = asPF t50)) ∧
    ((((t90 = none ∨ t90 = some (JVal.num 0)) ∧
        ((read_per_request_stats loads f.per_request).ttft_p90_s_computed).isSome) →
      ∃ c, (read_per_request_stats loads f.per_request).ttft_p90_s_computed = some c ∧
        rec.ttft_p90_s = PFloat.num c) ∧
     (¬ ((t90 = none ∨ t90 = some (JVal.num 0)) ∧
        ((read_per_request_stats loads f.per_request).ttft_p90_s_computed).isSome) →
      rec.ttft_p90_s = asPF t90)) ∧
    ((((i50 = none ∨ i50 = some (JVal.num 0)) ∧
        ((read_per_request_stats loads f.per_request).itl_p50_s_computed).isSome) →
      ∃ c, (read_per_request_stats loads f.per_request).itl_p50_s_computed = some c ∧
        rec.itl_p50_s = PFloat.num c) ∧
     (¬ ((i50 = none ∨ i50 = some (JVal.num 0)) ∧
        ((read_per_request_stats loads f.per_request).itl_p50_s_computed).isSome) →
      rec.itl_p50_s = asPF i50)) ∧
    ((((i90 = none ∨ i90 = some (JVal.num 0)) ∧
        ((read_per_request_stats loads f.per_request).itl_p90_s_computed).isSome) →
      ∃ c, (read_per_request_stats loads f.per_request).itl_p90_s_computed = some c ∧
        rec.itl_p90_s = PFloat.num c) ∧
     (¬ ((i90 = none ∨ i90 = some (JVal.num 0)) ∧
        ((read_per_request_stats loads f.per_request).itl_p90_s_computed).isSome) →
      rec.itl_p90_s = asPF i90)) := by
  rw [parse_stage_file, hd] at h
  simp only [except_bind_eq_ok] at h
  obtain ⟨y, hy, g1, hg1, g2, hg2, g3, hg3, g4, hg4, g5, hg5, g6, hg6, g7, hg7,
    g8, hg8, v1, hv1, v2, hv2, v3, hv3, c1, hc1, sN, hsN, c2, hc2, fN, hfN,
    r1, hr1, r2, hr2, r3, hr3, r4, hr4, p1, hp1, p2, hp2, p3, hp3, p4, hp4,
    m1, hm1, m2, hm2, m3, hm3, q1, hq1, d1, hd1, a1, ha1, hfin⟩ := h
  obtain rfl := Except.ok.inj hy
  obtain rfl := Except.ok.inj hfin
  simp only [stageJsonPerc, except_bind_eq_ok] at h50 h90 hi50 hi90
  obtain ⟨a, ha, b, hb, c, hcx, hraw⟩ := h50
  obtain rfl := Except.ok.inj (hg2.symm.trans ha)
  obtain rfl := Except.ok.inj (hg4.symm.trans hb)
  obtain rfl := Except.ok.inj (hg5.symm.trans hcx)
  obtain rfl := Except.ok.inj (hr1.symm.trans hraw)
  obtain ⟨a, ha, b, hb, c, hcx, hraw⟩ := h90
  obtain rfl := Except.ok.inj (hg2.symm.trans ha)
  obtain rfl := Except.ok.inj (hg4.symm.trans hb)
  obtain rfl := Except.ok.inj (hg5.symm.trans hcx)
  obtain rfl := Except.ok.inj (hr2.symm.trans hraw)
  obtain ⟨a, ha, b, hb, c, hcx, hraw⟩ := hi50
  obtain rfl := Except.ok.inj (hg2.symm.trans ha)
  obtain rfl := Except.ok.inj (hg4.symm.trans hb)
  obtain rfl := Except.ok.inj (hg6.symm.trans hcx)
  obtain rfl := Except.ok.inj (hr3.symm.trans hraw)
  obtain ⟨a, ha, b, hb, c, hcx, hraw⟩ := hi90
  obtain rfl := Except.ok.inj (hg2.symm.trans ha)
  obtain rfl := Except.ok.inj (hg4.symm.trans hb)
  obtain rfl := Except.ok.inj (hg6.symm.trans hcx)
  obtain rfl := Except.ok.inj (hr4.symm.trans hraw)
  refine ⟨?_, ?_, ?_, ?_⟩
  · obtain ⟨hf1, hf2⟩ := percFallback_cases _ _ _ hp3
    constructor
    · intro hcnd
      obtain ⟨cc, hcc, hout⟩ := hf1 hcnd
      exact ⟨cc, hcc, by simp [hout, asPF]⟩
    · intro hcnd
      rw [hf2 hcnd]
  · obtain ⟨hf1, hf2⟩ := percFallback_cases _ _ _ hp4
    constructor
    · intro hcnd
      obtain ⟨cc, hcc, hout⟩ := hf1 hcnd
      exact ⟨cc, hcc, by simp [hout, asPF]⟩
    · intro hcnd
      rw [hf2 hcnd]
  · obtain ⟨hf1, hf2⟩ := percFallback_cases _ _ _ hp1
    constructor
    · intro hcnd
      obtain ⟨cc, hcc, hout⟩ := hf1 hcnd
      exact ⟨cc, hcc, by simp [hout, asPF]⟩
    · intro hcnd
      rw [hf2 hcnd]
  · obtain ⟨hf1, hf2⟩ := percFallback_cases _ _ _ hp2
    constructor
    · intro hcnd
      obtain ⟨cc, hcc, hout⟩ := hf1 hcnd
      exact ⟨cc, hcc, by simp [hout, asPF]⟩
    · intro hcnd
      rw [hf2 hcnd]

/-- Witness for C4 at a stage file whose stored TTFT p50 is the non-zero
value `5`: the record keeps the stored value. -/
theorem parse_stage_percentile_fallback_witness :
    ∃ rec, parse_stage_file (fun _ => none) c4Stage = Except.ok rec ∧
      rec.ttft_p50_s = PFloat.num 5 := by
  refine ⟨_, rfl, ?_⟩
  have h := parse_stage_percentile_fallback (fun _ => none) c4Stage _
    (JVal.obj [("successes", JVal.obj [("latency",
      JVal.obj [("time_to_first_token", JVal.obj [("p50", JVal.num 5)])])])])
    (some (JVal.num 5)) none none none rfl rfl rfl rfl rfl rfl
  have h2 := (h.1).2 (by simp)
  exact h2

theorem rat_floor_eq_int_floor (q : ℚ) : (Rat.floor q : ℤ) = ⌊q⌋ := rfl

theorem getD_nonneg (l : List ℚ) (hl : ∀ x ∈ l, 0 ≤ x) (i : Nat) (d : ℚ) (hd : 0 ≤ d) :
    0 ≤ l.getD i d := by
  rw [List.getD_eq_getElem?_getD]
  cases hx : l[i]? with
  | none => simpa using hd
  | some v =>
    obtain ⟨hlt, rfl⟩ := List.getElem?_eq_some_iff.mp hx
    simpa using hl _ (List.getElem_mem hlt)

/-- A NumPy linear-interpolation percentile of non-negative samples is
non-negative. -/
theorem npPercentile_nonneg (samples : List ℚ) (p : ℚ)
    (h : ∀ x ∈ samples, 0 ≤ x) : 0 ≤ npPercentile samples p := by
  rw [npPercentile]
  cases hs : insSortBy (fun a b => decide (a ≤ b)) samples with
  | nil => simp
  | cons s0 rest =>
    have hmem : ∀ x ∈ s0 :: rest, (0 : ℚ) ≤ x := by
      intro x hx
      exact h x ((mem_insSortBy _ _ _).mp (hs ▸ hx))
    set hq : ℚ := p * ((s0 :: rest).length - 1) / 100 with hhq
    have hf0 : (0 : ℚ) ≤ hq - (Rat.floor hq : ℤ) := by
      rw [rat_floor_eq_int_floor]
      have := Int.floor_le hq
      linarith
    have hf1 : hq - (Rat.floor hq : ℤ) < 1 := by
      rw [rat_floor_eq_int_floor]
      have := Int.lt_floor_add_one hq
      linarith
    have hlo : 0 ≤ (s0 :: rest).getD (Rat.floor hq).toNat 0 :=
      getD_nonneg _ hmem _ _ le_rfl
    have hhi : 0 ≤ (s0 :: rest).getD ((Rat.floor hq).toNat + 1)
        ((s0 :: rest).getD (Rat.floor hq).toNat 0) :=
      getD_nonneg _ hmem _ _ hlo
    set lo := (s0 :: rest).getD (Rat.floor hq).toNat 0
    set hi := (s0 :: rest).getD ((Rat.floor hq).toNat + 1) lo
    set f : ℚ := hq - (Rat.floor hq : ℤ)
    have key : lo + f * (hi - lo) = (1 - f) * lo + f * hi := by ring
    rw [key]
    have h1f : (0 : ℚ) ≤ 1 - f := by linarith
    exact add_nonneg (mul_nonneg h1f hlo) (mul_nonneg hf0 hhi)

theorem itlGo_inv (acc : PRAcc) (prev : JVal) (l : List JVal) (h : accNonneg acc) :
    accNonneg (exVal (itlGo acc prev l)) := by
  induction l generalizing acc prev with
  | nil => exact h
  | cons b rest ih =>
    rw [itlGo]
    cases pyFloatE b with
    | error e => exact h
    | ok qb =>
      cases pyFloatE prev with
      | error e => exact h
      | ok qa =>
        dsimp only
        by_cases hge : (0 : ℚ) ≤ qb - qa
        · rw [if_pos hge]
          refine ih _ b ⟨h.1, ?_⟩
          intro x hx
          rcases List.mem_append.mp hx with hx | hx
          · exact h.2 x hx
          · rw [List.mem_singleton.mp hx]
            exact hge
        · rw [if_neg hge]
          exact ih _ b h

theorem ttftStep_inv (acc : PRAcc) (st : Option JVal) (ts : List JVal) (h : accNonneg acc) :
    accNonneg (exVal (ttftStep acc st ts)) := by
  cases st with
  | none => cases ts <;> exact h
  | some v =>
    cases ts with
    | nil => exact h
    | cons t0 rest =>
      rw [ttftStep]
      cases pyFloatE t0 with
      | error e => exact h
      | ok q0 =>
        cases pyFloatE v with
        | error e => exact h
        | ok qs =>
          dsimp only
          by_cases hge : (0 : ℚ) ≤ q0 - qs
          · rw [if_pos hge]
            refine ⟨?_, h.2⟩
            intro x hx
            rcases List.mem_append.mp hx with hx | hx
            · exact h.1 x hx
            · rw [List.mem_singleton.mp hx]
              exact hge
          · rw [if_neg hge]
            exact h

theorem prStep_inv (acc : PRAcc) (obj : JVal) (h : accNonneg acc) :
    accNonneg (exVal (prStep acc obj)) := by
  cases obj with
  | obj fs =>
    rw [prStep]
    split
    · exact h
    · dsimp only
      split
      · exact h
      · rename_i vIn hvIn
        split
        · exact h
        · rename_i nIn hnIn
          split
          · exact h
          · rename_i vOut hvOut
            split
            · exact h
            · rename_i nOut hnOut
              split
              · exact h
              · rename_i rawTimes hraw
                split
                · exact h
                · rename_i hts
                  split
                  · rename_i a heq
                    have h1 := ttftStep_inv
                      { inTok := acc.inTok + nIn, outTok := acc.outTok + nOut,
                        ttftS := acc.ttftS, itlS := acc.itlS }
                      (objGetN fs "start_time")
                      (if (decide ((pyOr rawTimes (JVal.arr [])).elems.length ≥ 2) &&
                          jEqB ((pyOr rawTimes (JVal.arr [])).elems.getD 0 JVal.null)
                            ((pyOr rawTimes (JVal.arr [])).elems.getD 1 JVal.null)) = true
                        then everyOther (pyOr rawTimes (JVal.arr [])).elems
                        else (pyOr rawTimes (JVal.arr [])).elems) h
                    rw [heq] at h1
                    exact h1
                  · rename_i a heq
                    have h1 := ttftStep_inv
                      { inTok := acc.inTok + nIn, outTok := acc.outTok + nOut,
                        ttftS := acc.ttftS, itlS := acc.itlS }
                      (objGetN fs "start_time")
                      (if (decide ((pyOr rawTimes (JVal.arr [])).elems.length ≥ 2) &&
                          jEqB ((pyOr rawTimes (JVal.arr [])).elems.getD 0 JVal.null)
                            ((pyOr rawTimes (JVal.arr [])).elems.getD 1 JVal.null)) = true
                        then everyOther (pyOr rawTimes (JVal.arr [])).elems
                        else (pyOr rawTimes (JVal.arr [])).elems) h
                    rw [heq] at h1
                    split
                    · rename_i t0 rest hstarts
                      exact itlGo_inv a t0 rest h1
                    · exact h1
  | null => exact h
  | bool b => exact h
  | num q => exact h
  | str s => exact h
  | arr es => exact h
theorem runSteps_inv (objs : List JVal) (acc : PRAcc) (h : accNonneg acc) :
    accNonneg (runSteps acc objs) := by
  induction objs generalizing acc with
  | nil => exact h
  | cons o os ih =>
    rw [runSteps]
    have hstep := prStep_inv acc o h
    cases hp : prStep acc o with
    | ok a =>
      rw [hp] at hstep
      exact ih a hstep
    | error a =>
      rw [hp] at hstep
      exact hstep

/-- C9: whenever a computed TTFT or ITL percentile in the returned
per-request stats is not `None`, it is non-negative: TTFT samples are
collected only when first-token-start minus request-start is `≥ 0`, ITL
samples only when successive token-start differences are `≥ 0`, and a
percentile of non-negative samples is non-negative. -/
theorem per_request_percentiles_nonneg (loads : String → Option JVal) (file : Option String) :
    (∀ v, (read_per_request_stats loads file).ttft_p50_s_computed = some v → 0 ≤ v) ∧
    (∀ v, (read_per_request_stats loads file).ttft_p90_s_computed = some v → 0 ≤ v) ∧
    (∀ v, (read_per_request_stats loads file).itl_p50_s_computed = some v → 0 ≤ v) ∧
    (∀ v, (read_per_request_stats loads file).itl_p90_s_computed = some v → 0 ≤ v) := by
  cases file with
  | none =>
    refine ⟨?_, ?_, ?_, ?_⟩ <;> (intro v hv; exact absurd hv (by simp [read_per_request_stats]))
  | some text =>
    have hinv : accNonneg (runSteps initPRAcc (iter_requests loads text)) :=
      runSteps_inv _ _ ⟨by simp [initPRAcc], by simp [initPRAcc]⟩
    rw [read_per_request_stats]
    refine ⟨?_, ?_, ?_, ?_⟩ <;> intro v hv
    · rw [mkPRStats] at hv
      by_cases he : (runSteps initPRAcc (iter_requests loads text)).ttftS.isEmpty
      · simp [he] at hv
      · simp only [he, if_false, Bool.false_eq_true, Option.some.injEq] at hv
        rw [← hv]
        exact npPercentile_nonneg _ _ hinv.1
    · rw [mkPRStats] at hv
      by_cases he : (runSteps initPRAcc (iter_requests loads text)).ttftS.isEmpty
      · simp [he] at hv
      · simp only [he, if_false, Bool.false_eq_true, Option.some.injEq] at hv
        rw [← hv]
        exact npPercentile_nonneg _ _ hinv.1
    · rw [mkPRStats] at hv
      by_cases he : (runSteps initPRAcc (iter_requests loads text)).itlS.isEmpty
      · simp [he] at hv
      · simp only [he, if_false, Bool.false_eq_true, Option.some.injEq] at hv
        rw [← hv]
        exact npPercentile_nonneg _ _ hinv.2
    · rw [mkPRStats] at hv
      by_cases he : (runSteps initPRAcc (iter_requests loads text)).itlS.isEmpty
      · simp [he] at hv
      · simp only [he, if_false, Bool.false_eq_true, Option.some.injEq] at hv
        rw [← hv]
        exact npPercentile_nonneg _ _ hinv.2

/-- Witness for C9 at a concrete one-request log: the computed TTFT p50 is
`1`, which is non-negative. -/
theorem per_request_percentiles_nonneg_witness :
    (read_per_request_stats c9loads (some "[r]")).ttft_p50_s_computed = some 1 ∧
      (0 : ℚ) ≤ 1 := by
  have hv : (read_per_request_stats c9loads (some "[r]")).ttft_p50_s_computed = some 1 := by
    simp +decide [read_per_request_stats, iter_requests, c9loads, c9Req, runSteps, prStep,
      mkPRStats, initPRAcc, objGetN, objGetD, jLookup, pyOr, JVal.truthy, dictGetE,
      pyIntE, pyFloatE, ratTrunc, everyOther, jEqB, ttftStep, itlGo, npPercentile,
      insSortBy, insertLe, JVal.isArr, JVal.elems, rat_floor_eq_int_floor]
  exact ⟨hv, (per_request_percentiles_nonneg c9loads (some "[r]")).1 1 hv⟩

theorem filterMap_mkPodSample (ts : String) (pods : List JVal) :
    pods.filterMap (mkPodSample ts) = (pods.filter JVal.isObj).map (fun pod =>
      { timestamp := ts
        pod_update_time_raw := jLookup pod.objFields "UpdateTime"
        pod_name := match objGetD pod.objFields "NamespacedName" (.obj []) with
          | .obj nfs => objGetD nfs "Name" (.str "unknown")
          | _ => .str "unknown"
        pod_address := objGetD pod.objFields "Address" (.str "unknown")
        waiting_queue_size := objGetD pod.objFields "WaitingQueueSize" (.num 0)
        kv_cache_usage_percent := objGetD pod.objFields "KVCacheUsagePercent" (.num 0) }) := by
  induction pods with
  | nil => rfl
  | cons p rest ih =>
    cases p with
    | obj fs =>
      simp only [List.filterMap_cons, List.filter_cons, mkPodSample, JVal.isObj,
        JVal.objFields, if_pos, List.map_cons, ih]
    | null =>
      simpa only [List.filterMap_cons, List.filter_cons, mkPodSample, JVal.isObj,
        Bool.false_eq_true, if_false] using ih
    | bool b =>
      simpa only [List.filterMap_cons, List.filter_cons, mkPodSample, JVal.isObj,
        Bool.false_eq_true, if_false] using ih
    | num q =>
      simpa only [List.filterMap_cons, List.filter_cons, mkPodSample, JVal.isObj,
        Bool.false_eq_true, if_false] using ih
    | str s =>
      simpa only [List.filterMap_cons, List.filter_cons, mkPodSample, JVal.isObj,
        Bool.false_eq_true, if_false] using ih
    | arr es =>
      simpa only [List.filterMap_cons, List.filter_cons, mkPodSample, JVal.isObj,
        Bool.false_eq_true, if_false] using ih

/-- C6 (amended): parsing an EPP log line returns `None` exactly when the
line lacks a leading ISO-8601 timestamp, the matched timestamp fails
datetime conversion (`dateutil.parser.parse` raises and the blanket
`except` returns `None`), the line lacks an extractable `"pods"` array, the
extracted text does not parse as a JSON array, or the array contains no
JSON-object element; otherwise it returns one sample per object element of
the array, each carrying the line's timestamp and the pod's name, address,
waiting queue size and KV-cache usage. -/
theorem parse_epp_log_line_spec (loads : String → Option JVal)
    (dtparse : String → Bool) (line : String) :
    (parse_epp_log_line loads dtparse line = none ↔
      matchTimestamp line = none ∨
      (∃ ts, matchTimestamp line = some ts ∧ dtparse ts = false) ∨
      findPodsArray line = none ∨
      (∃ ptext, findPodsArray line = some ptext ∧
        ((∀ pods, loads ptext ≠ some (JVal.arr pods)) ∨
         (∃ pods, loads ptext = some (JVal.arr pods) ∧
           pods.filter JVal.isObj = [])))) ∧
    (∀ ms, parse_epp_log_line loads dtparse line = some ms →
      ∃ ts ptext pods, matchTimestamp line = some ts ∧ dtparse ts = true ∧
        findPodsArray line = some ptext ∧
        loads ptext = some (JVal.arr pods) ∧ ms ≠ [] ∧
        ms = (pods.filter JVal.isObj).map (fun pod =>
          { timestamp := ts
            pod_update_time_raw := jLookup pod.objFields "UpdateTime"
            pod_name := match objGetD pod.objFields "NamespacedName" (.obj []) with
              | .obj nfs => objGetD nfs "Name" (.str "unknown")
              | _ => .str "unknown"
            pod_address := objGetD pod.objFields "Address" (.str "unknown")
            waiting_queue_size := objGetD pod.objFields "WaitingQueueSize" (.num 0)
            kv_cache_usage_percent := objGetD pod.objFields "KVCacheUsagePercent" (.num 0) })) := by
  constructor
  · rw [parse_epp_log_line]
    cases hts : matchTimestamp line with
    | none => simp
    | some ts =>
      dsimp only
      cases hdt : dtparse ts with
      | false =>
        simp only [Bool.false_eq_true, if_false]
        constructor
        · rintro -
          exact Or.inr (Or.inl ⟨ts, rfl, hdt⟩)
        · rintro -
          trivial
      | true =>
        rw [if_pos rfl]
        have hdtref : ∀ ts2 : String, some ts = some ts2 → dtparse ts2 = false → False := by
          rintro ts2 hts2 hfalse
          obtain rfl := Option.some.inj hts2
          rw [hdt] at hfalse
          exact Bool.noConfusion hfalse
        cases hfp : findPodsArray line with
        | none =>
          constructor
          · rintro -
            exact Or.inr (Or.inr (Or.inl rfl))
          · rintro -
            rfl
        | some ptext =>
          dsimp only
          cases hl : loads ptext with
          | none =>
            constructor
            · rintro -
              exact Or.inr (Or.inr (Or.inr ⟨ptext, rfl, Or.inl
                (fun pods hcon => Option.noConfusion (hl ▸ hcon))⟩))
            · rintro -
              rfl
          | some v =>
            cases v with
            | arr pods =>
              dsimp only
              by_cases he : (pods.filterMap (mkPodSample ts)).isEmpty = true
              · constructor
                · rintro -
                  refine Or.inr (Or.inr (Or.inr ⟨ptext, rfl, Or.inr ⟨pods, hl, ?_⟩⟩))
                  have h2 := List.isEmpty_iff.mp he
                  rw [filterMap_mkPodSample] at h2
                  exact List.map_eq_nil_iff.mp h2
                · rintro -
                  rw [if_pos he]
              · constructor
                · intro hcon
                  rw [if_neg he] at hcon
                  exact Option.noConfusion hcon
                · rintro (hcon | ⟨ts2, hts2, hfalse⟩ | hcon | ⟨ptext2, hp2, hcon⟩)
                  · exact Option.noConfusion hcon
                  · exact absurd (hdtref ts2 hts2 hfalse) not_false
                  · exact Option.noConfusion hcon
                  · obtain rfl : ptext2 = ptext := (Option.some.inj hp2).symm
                    rcases hcon with hcon | ⟨pods2, hl2, hfil⟩
                    · exact absurd hl (hcon pods)
                    · have hpp : pods2 = pods :=
                        (JVal.arr.inj (Option.some.inj (hl.symm.trans hl2))).symm
                      subst hpp
                      exfalso
                      apply he
                      rw [filterMap_mkPodSample, hfil]
                      rfl
            | null =>
              constructor
              · rintro -
                exact Or.inr (Or.inr (Or.inr ⟨ptext, rfl, Or.inl (fun pods hcon =>
                  JVal.noConfusion (Option.some.inj (hl ▸ hcon)))⟩))
              · rintro -
                rfl
            | bool b =>
              constructor
              · rintro -
                exact Or.inr (Or.inr (Or.inr ⟨ptext, rfl, Or.inl (fun pods hcon =>
                  JVal.noConfusion (Option.some.inj (hl ▸ hcon)))⟩))
              · rintro -
                rfl
            | num q =>
              constructor
              · rintro -
                exact Or.inr (Or.inr (Or.inr ⟨ptext, rfl, Or.inl (fun pods hcon =>
                  JVal.noConfusion (Option.some.inj (hl ▸ hcon)))⟩))
              · rintro -
                rfl
            | str s =>
              constructor
              · rintro -
                exact Or.inr (Or.inr (Or.inr ⟨ptext, rfl, Or.inl (fun pods hcon =>
                  JVal.noConfusion (Option.some.inj (hl ▸ hcon)))⟩))
              · rintro -
                rfl
            | obj fs =>
              constructor
              · rintro -
                exact Or.inr (Or.inr (Or.inr ⟨ptext, rfl, Or.inl (fun pods hcon =>
                  JVal.noConfusion (Option.some.inj (hl ▸ hcon)))⟩))
              · rintro -
                rfl
  · intro ms hms
    rw [parse_epp_log_line] at hms
    cases hts : matchTimestamp line with
    | none =>
      rw [hts] at hms
      exact absurd hms (by simp)
    | some ts =>
      rw [hts] at hms
      dsimp only at hms
      cases hdt : dtparse ts with
      | false =>
        rw [hdt] at hms
        simp only [Bool.false_eq_true, if_false] at hms
        exact Option.noConfusion hms
      | true =>
        rw [hdt, if_pos rfl] at hms
        cases hfp : findPodsArray line with
        | none =>
          rw [hfp] at hms
          exact absurd hms (by simp)
        | some ptext =>
          rw [hfp] at hms
          dsimp only at hms
          cases hl : loads ptext with
          | none =>
            rw [hl] at hms
            exact absurd hms (by simp)
          | some v =>
            rw [hl] at hms
            cases v with
            | arr pods =>
              dsimp only at hms
              by_cases he : (pods.filterMap (mkPodSample ts)).isEmpty = true
              · rw [if_pos he] at hms
                exact absurd hms (by simp)
              · rw [if_neg he] at hms
                refine ⟨ts, ptext, pods, rfl, hdt, rfl, hl, ?_, ?_⟩
                · intro hnil
                  rw [← Option.some.inj hms] at hnil
                  rw [hnil] at he
                  exact he rfl
                · rw [← Option.some.inj hms, filterMap_mkPodSample]
            | null => exact absurd hms (by simp)
            | bool b => exact absurd hms (by simp)
            | num q => exact absurd hms (by simp)
            | str s => exact absurd hms (by simp)
            | obj fs => exact absurd hms (by simp)

/-- C6 counterexample: a line with a valid timestamp (whose datetime
conversion succeeds) and a valid but empty `pods` array yields `None`, not
an empty sample list — none of the claim's stated `None` conditions
holds. -/
theorem parse_epp_empty_pods_counterexample :
    parse_epp_log_line c6loads c6dtparse c6emptyLine = none ∧
    matchTimestamp c6emptyLine = some "2024-01-01T00:00:00Z" ∧
    c6dtparse "2024-01-01T00:00:00Z" = true ∧
    findPodsArray c6emptyLine = some "[]" ∧
    c6loads "[]" = some (JVal.arr []) :=
  ⟨rfl, rfl, rfl, rfl, rfl⟩

/-- Witness for C6 at a line whose pods array holds one pod object. -/
theorem parse_epp_log_line_spec_witness :
    ∃ ts ptext pods, matchTimestamp c6goodLine = some ts ∧ c6dtparse ts = true ∧
      findPodsArray c6goodLine = some ptext ∧
      c6loads ptext = some (JVal.arr pods) ∧
      ([⟨"2024-01-01T00:00:00Z", none, .str "unknown", .str "unknown", .num 0, .num 0⟩] :
        List PodMetric) ≠ [] ∧
      ([⟨"2024-01-01T00:00:00Z", none, .str "unknown", .str "unknown", .num 0,
        .num 0⟩] : List PodMetric) =
        (pods.filter JVal.isObj).map (fun pod =>
          { timestamp := ts
            pod_update_time_raw := jLookup pod.objFields "UpdateTime"
            pod_name := match objGetD pod.objFields "NamespacedName" (.obj []) with
              | .obj nfs => objGetD nfs "Name" (.str "unknown")
              | _ => .str "unknown"
            pod_address := objGetD pod.objFields "Address" (.str "unknown")
            waiting_queue_size := objGetD pod.objFields "WaitingQueueSize" (.num 0)
            kv_cache_usage_percent := objGetD pod.objFields "KVCacheUsagePercent" (.num 0) }) :=
  (parse_epp_log_line_spec c6loads c6dtparse c6goodLine).2
    [⟨"2024-01-01T00:00:00Z", none, .str "unknown", .str "unknown", .num 0, .num 0⟩] rfl

theorem stageKey_eq_some (r : StageRecord) (e : String) (q : ℚ) :
    stageKey r = some (e, q) ↔ r.experiment = e ∧ r.requested_qps = PFloat.num q := by
  cases hr : r.requested_qps with
  | num q2 => simp [stageKey, hr, Prod.ext_iff, and_comm]
  | inf => simp [stageKey, hr]
  | ninf => simp [stageKey, hr]
  | nan => simp [stageKey, hr]

theorem aggRowOf_experiment (mode : ServedMode) (df : List StageRecord) (k : String × ℚ) :
    (aggRowOf mode df k).experiment = k.1 := rfl

theorem aggRowOf_qps (mode : ServedMode) (df : List StageRecord) (k : String × ℚ) :
    (aggRowOf mode df k).requested_qps = k.2 := rfl

theorem mem_groupKeys (df : List StageRecord) (e : String) (q : ℚ) :
    (e, q) ∈ groupKeys df ↔ ∃ r ∈ df, r.experiment = e ∧ r.requested_qps = PFloat.num q := by
  rw [groupKeys, mem_insSortBy, List.mem_dedup, List.mem_filterMap]
  constructor
  · rintro ⟨r, hr, hk⟩
    exact ⟨r, hr, (stageKey_eq_some r e q).mp hk⟩
  · rintro ⟨r, hr, hk⟩
    exact ⟨r, hr, (stageKey_eq_some r e q).mpr hk⟩

/-- C2 (amended): aggregation produces exactly one output row per distinct
`(experiment, requested_qps)` pair with a non-missing `requested_qps`
(rows whose key is missing are dropped by `groupby`), and in that row
`successes`, `failures`, the token totals and the send duration are sums
over the grouped stage records (pandas sums skip missing values), while
`achieved_rps_json` and the TTFT/ITL mean and percentile fields are
arithmetic means over the grouped records' non-missing values. -/
theorem aggregate_per_qps_spec (df : List StageRecord) (mode : ServedMode) (cap : Bool) :
    (∀ e q, (∃ r ∈ df, r.experiment = e ∧ r.requested_qps = PFloat.num q) ↔
      (∃! row, row ∈ aggregate_per_qps df mode cap ∧
        row.experiment = e ∧ row.requested_qps = q)) ∧
    (∀ row ∈ aggregate_per_qps df mode cap,
      (row.successes = ((df.filter (fun r => decide (r.experiment = row.experiment ∧
          r.requested_qps = PFloat.num row.requested_qps))).map (·.successes)).sum ∧
       row.failures = ((df.filter (fun r => decide (r.experiment = row.experiment ∧
          r.requested_qps = PFloat.num row.requested_qps))).map (·.failures)).sum ∧
       row.duration_s = psum0 ((df.filter (fun r => decide (r.experiment = row.experiment ∧
          r.requested_qps = PFloat.num row.requested_qps))).map (·.send_duration_s)) ∧
       row.input_tokens_total = ((df.filter (fun r => decide (r.experiment = row.experiment ∧
          r.requested_qps = PFloat.num row.requested_qps))).map (·.input_tokens_total)).sum ∧
       row.output_tokens_total = ((df.filter (fun r => decide (r.experiment = row.experiment ∧
          r.requested_qps = PFloat.num row.requested_qps))).map (·.output_tokens_total)).sum ∧
       row.achieved_rps_json = pmean ((df.filter (fun r => decide (r.experiment = row.experiment ∧
          r.requested_qps = PFloat.num row.requested_qps))).map (·.achieved_rps_json)) ∧
       row.ttft_mean_s = pmean ((df.filter (fun r => decide (r.experiment = row.experiment ∧
          r.requested_qps = PFloat.num row.requested_qps))).map (·.ttft_mean_s)) ∧
       row.itl_mean_s = pmean ((df.filter (fun r => decide (r.experiment = row.experiment ∧
          r.requested_qps = PFloat.num row.requested_qps))).map (·.itl_mean_s)) ∧
       row.ttft_p50_s = pmean ((df.filter (fun r => decide (r.experiment = row.experiment ∧
          r.requested_qps = PFloat.num row.requested_qps))).map (·.ttft_p50_s)) ∧
       row.ttft_p90_s = pmean ((df.filter (fun r => decide (r.experiment = row.experiment ∧
          r.requested_qps = PFloat.num row.requested_qps))).map (·.ttft_p90_s)) ∧
       row.itl_p50_s = pmean ((df.filter (fun r => decide (r.experiment = row.experiment ∧
          r.requested_qps = PFloat.num row.requested_qps))).map (·.itl_p50_s)) ∧
       row.itl_p90_s = pmean ((df.filter (fun r => decide (r.experiment = row.experiment ∧
          r.requested_qps = PFloat.num row.requested_qps))).map (·.itl_p90_s)))) := by
  have hgrp : ∀ k : String × ℚ, groupOf df k =
      df.filter (fun r => decide (r.experiment = k.1 ∧ r.requested_qps = PFloat.num k.2)) := by
    intro k
    apply List.filter_congr
    intro r hr
    rw [decide_eq_decide]
    cases k with
    | mk e q => exact stageKey_eq_some r e q
  constructor
  · intro e q
    constructor
    · rintro ⟨r, hr, he, hq⟩
      have hne : df.isEmpty = false := by
        cases df
        · simp at hr
        · rfl
      have hk : (e, q) ∈ groupKeys df := (mem_groupKeys df e q).mpr ⟨r, hr, he, hq⟩
      refine ⟨aggRowOf mode df (e, q), ⟨?_, rfl, rfl⟩, ?_⟩
      · rw [aggregate_per_qps, hne]
        simp only [Bool.false_eq_true, if_false]
        exact List.mem_map_of_mem _ hk
      · rintro row' ⟨hm', he', hq'⟩
        rw [aggregate_per_qps, hne] at hm'
        simp only [Bool.false_eq_true, if_false, List.mem_map] at hm'
        obtain ⟨k', -, rfl⟩ := hm'
        have : k' = (e, q) := by
          rw [Prod.ext_iff]
          exact ⟨he', hq'⟩
        rw [this]
    · rintro ⟨row, ⟨hm, he, hq⟩, -⟩
      by_cases hne : df.isEmpty = true
      · rw [aggregate_per_qps, hne] at hm
        simp at hm
      · rw [aggregate_per_qps, eq_false_of_ne_true hne] at hm
        simp only [Bool.false_eq_true, if_false, List.mem_map] at hm
        obtain ⟨k, hk, rfl⟩ := hm
        rw [aggRowOf_experiment] at he
        rw [aggRowOf_qps] at hq
        have hk2 : (e, q) ∈ groupKeys df := by
          have : k = (e, q) := by
            rw [Prod.ext_iff]
            exact ⟨he, hq⟩
          rw [← this]
          exact hk
        exact (mem_groupKeys df e q).mp hk2
  · intro row hm
    by_cases hne : df.isEmpty = true
    · rw [aggregate_per_qps, hne] at hm
      simp at hm
    · rw [aggregate_per_qps, eq_false_of_ne_true hne] at hm
      simp only [Bool.false_eq_true, if_false, List.mem_map] at hm
      obtain ⟨k, -, rfl⟩ := hm
      rw [aggRowOf_experiment, aggRowOf_qps]
      rw [← hgrp k]
      exact ⟨rfl, rfl, rfl, rfl, rfl, rfl, rfl, rfl, rfl, rfl, rfl, rfl⟩

/-- C2 counterexample: a non-empty stage table whose single row has a
missing `requested_qps` aggregates to an empty table — there is no output
row for that pair. -/
theorem aggregate_drops_missing_qps_counterexample :
    aggregate_per_qps [nanQpsRec] ServedMode.total true = [] ∧
      ([nanQpsRec] : List StageRecord) ≠ [] :=
  ⟨rfl, by simp⟩

/-- Witness for C2 at a one-row table with `requested_qps = 2`. -/
theorem aggregate_per_qps_spec_witness :
    ∃! row, row ∈ aggregate_per_qps [q2Rec] ServedMode.total true ∧
      row.experiment = "exp1" ∧ row.requested_qps = 2 :=
  ((aggregate_per_qps_spec [q2Rec] ServedMode.total true).1 "exp1" 2).mp
    ⟨q2Rec, by simp, rfl, rfl⟩

theorem mem_expKeys (agg : List AggRow) (e : String) :
    e ∈ expKeys agg ↔ ∃ r ∈ agg, r.experiment = e := by
  rw [expKeys, mem_insSortBy, List.mem_dedup, List.mem_map]

theorem summary_rows_shape (agg : List AggRow) (mode : ServedMode) (cap : Bool)
    (baseline : Option String) :
    ∃ f : String → SummaryRow,
      (∀ e, (f e).experiment = e ∧
        (f e).ttft_mean_s_overall = (mkSummaryRow agg mode e).ttft_mean_s_overall ∧
        (f e).itl_mean_s_overall = (mkSummaryRow agg mode e).itl_mean_s_overall ∧
        (f e).ttft_p50_s_overall = (mkSummaryRow agg mode e).ttft_p50_s_overall ∧
        (f e).ttft_p90_s_overall = (mkSummaryRow agg mode e).ttft_p90_s_overall ∧
        (f e).itl_p50_s_overall = (mkSummaryRow agg mode e).itl_p50_s_overall ∧
        (f e).itl_p90_s_overall = (mkSummaryRow agg mode e).itl_p90_s_overall) ∧
      (build_summary_across_qps agg mode cap baseline).Perm ((expKeys agg).map f) := by
  by_cases hE : agg.isEmpty = true
  · refine ⟨mkSummaryRow agg mode, fun e => ⟨rfl, rfl, rfl, rfl, rfl, rfl, rfl⟩, ?_⟩
    have hnil : agg = [] := List.isEmpty_iff.mp hE
    subst hnil
    rw [build_summary_across_qps]
    simp [expKeys, insSortBy]
  · rw [build_summary_across_qps, if_neg hE]
    dsimp only
    cases baseline with
    | none =>
      exact ⟨mkSummaryRow agg mode, fun e => ⟨rfl, rfl, rfl, rfl, rfl, rfl, rfl⟩,
        insSortBy_perm _ _⟩
    | some b =>
      dsimp only
      cases hfind : List.find? (fun s => decide (s.experiment = b))
          ((expKeys agg).map (mkSummaryRow agg mode)) with
      | none =>
        dsimp only
        exact ⟨mkSummaryRow agg mode, fun e => ⟨rfl, rfl, rfl, rfl, rfl, rfl, rfl⟩,
          insSortBy_perm _ _⟩
      | some bs =>
        dsimp only
        by_cases hcond : ¬ bs.ttft_mean_s_overall.isNaN ∧ bs.ttft_mean_s_overall ≠ .num 0
        · rw [if_pos hcond]
          refine ⟨fun e => setDelta bs.ttft_mean_s_overall (mkSummaryRow agg mode e),
            fun e => ⟨rfl, rfl, rfl, rfl, rfl, rfl, rfl⟩, ?_⟩
          rw [List.map_map]
          exact insSortBy_perm _ _
        · rw [if_neg hcond]
          exact ⟨mkSummaryRow agg mode, fun e => ⟨rfl, rfl, rfl, rfl, rfl, rfl, rfl⟩,
            insSortBy_perm _ _⟩

/-- C3: for a non-empty aggregated table the summary has exactly one row per
experiment appearing in the table, and every summary row's overall TTFT mean
(likewise ITL mean and the p50/p90 fields) is the success-count-weighted mean
of the experiment's per-qps values: the sum over its aggregated rows of
(value times successes) divided by the sum of successes, with an infinite
quotient replaced by NaN (missing per-qps values are skipped by the sum,
which is NaN when no value is present). -/
theorem build_summary_across_qps_weighted (agg : List AggRow) (mode : ServedMode)
    (cap : Bool) (baseline : Option String) (hne : agg ≠ []) :
    (∀ e, (∃ r ∈ agg, r.experiment = e) ↔
      (∃! row, row ∈ build_summary_across_qps agg mode cap baseline ∧
        row.experiment = e)) ∧
    (∀ row ∈ build_summary_across_qps agg mode cap baseline,
      (row.ttft_mean_s_overall =
        (PFloat.div
          (psum1 ((agg.filter (fun r => decide (r.experiment = row.experiment))).map
            (fun r => PFloat.mul r.ttft_mean_s (PFloat.num r.successes))))
          (PFloat.num
            (((((agg.filter (fun r => decide (r.experiment = row.experiment))).map
              (·.successes)).sum : ℤ) : ℚ)))).replaceInf ∧
       row.itl_mean_s_overall =
        (PFloat.div
          (psum1 ((agg.filter (fun r => decide (r.experiment = row.experiment))).map
            (fun r => PFloat.mul r.itl_mean_s (PFloat.num r.successes))))
          (PFloat.num
            (((((agg.filter (fun r => decide (r.experiment = row.experiment))).map
              (·.successes)).sum : ℤ) : ℚ)))).replaceInf ∧
       row.ttft_p50_s_overall =
        (PFloat.div
          (psum1 ((agg.filter (fun r => decide (r.experiment = row.experiment))).map
            (fun r => PFloat.mul r.ttft_p50_s (PFloat.num r.successes))))
          (PFloat.num
            (((((agg.filter (fun r => decide (r.experiment = row.experiment))).map
              (·.successes)).sum : ℤ) : ℚ)))).replaceInf ∧
       row.ttft_p90_s_overall =
        (PFloat.div
          (psum1 ((agg.filter (fun r => decide (r.experiment = row.experiment))).map
            (fun r => PFloat.mul r.ttft_p90_s (PFloat.num r.successes))))
          (PFloat.num
            (((((agg.filter (fun r => decide (r.experiment = row.experiment))).map
              (·.successes)).sum : ℤ) : ℚ)))).replaceInf ∧
       row.itl_p50_s_overall =
        (PFloat.div
          (psum1 ((agg.filter (fun r => decide (r.experiment = row.experiment))).map
            (fun r => PFloat.mul r.itl_p50_s (PFloat.num r.successes))))
          (PFloat.num
            (((((agg.filter (fun r => decide (r.experiment = row.experiment))).map
              (·.successes)).sum : ℤ) : ℚ)))).replaceInf ∧
       row.itl_p90_s_overall =
        (PFloat.div
          (psum1 ((agg.filter (fun r => decide (r.experiment = row.experiment))).map
            (fun r => PFloat.mul r.itl_p90_s (PFloat.num r.successes))))
          (PFloat.num
            (((((agg.filter (fun r => decide (r.experiment = row.experiment))).map
              (·.successes)).sum : ℤ) : ℚ)))).replaceInf)) := by
  obtain ⟨f, hf, hperm⟩ := summary_rows_shape agg mode cap baseline
  constructor
  · intro e
    constructor
    · rintro ⟨r, hr, he⟩
      have hkey : e ∈ expKeys agg := (mem_expKeys agg e).mpr ⟨r, hr, he⟩
      refine ⟨f e, ⟨hperm.mem_iff.mpr (List.mem_map_of_mem f hkey), (hf e).1⟩, ?_⟩
      rintro row' ⟨hm', he'⟩
      obtain ⟨k, hk, rfl⟩ := List.mem_map.mp (hperm.mem_iff.mp hm')
      have hke : k = e := ((hf k).1).symm.trans he'
      rw [hke]
    · rintro ⟨row, ⟨hm, he⟩, -⟩
      obtain ⟨k, hk, rfl⟩ := List.mem_map.mp (hperm.mem_iff.mp hm)
      have hke : k = e := ((hf k).1).symm.trans he
      exact (mem_expKeys agg e).mp (hke ▸ hk)
  · intro row hm
    obtain ⟨k, hk, rfl⟩ := List.mem_map.mp (hperm.mem_iff.mp hm)
    obtain ⟨he, h1, h2, h3, h4, h5, h6⟩ := hf k
    rw [he, h1, h2, h3, h4, h5, h6]
    exact ⟨rfl, rfl, rfl, rfl, rfl, rfl⟩

/-- Witness for C3: a one-row aggregated table for experiment `exp1` yields
exactly one summary row for `exp1`. -/
theorem build_summary_across_qps_weighted_witness :
    ([c3Row] : List AggRow) ≠ [] ∧
    (∃! row, row ∈ build_summary_across_qps [c3Row] ServedMode.total true none ∧
      row.experiment = "exp1") :=
  ⟨by simp,
   ((build_summary_across_qps_weighted [c3Row] ServedMode.total true none
      (by simp)).1 "exp1").mp ⟨c3Row, by simp, rfl⟩⟩
